import Mathlib

/-! Verification of the essh configuration resolution engine (Lua DSL layer).

This file is a shallow embedding, in Lean 4, of the parts of the essh source
that the verified properties talk about: the dynamic Lua value bridge, the
per-entity field updaters, the entity registries with their override chains,
the script normalizer `toScript`, the host-selection query surface, and the
memoized module importer.  Go pointers are modelled by arena indices, Go maps
by association lists updated in place, and fatal errors (`panic` /
`L.RaiseError`) by `Except String`.  Lua tables are modelled the way
gopher-lua stores them: an array part (the values at keys `1..n`, in order)
and a hash part (the remaining entries, in insertion order, which is the
order `ForEach` visits them). -/

namespace Essh

/-- The kinds of userdata handles the embedded code wraps: a host, task,
driver or job object, identified by its arena index in the interpreter
state.  In gopher-lua these are `*lua.LUserData` values whose `Value` holds
the Go pointer; equal index = same pointer. -/
inductive UDKind : Type where
  | host : UDKind
  | task : UDKind
  | driver : UDKind
  | job : UDKind
deriving DecidableEq, Repr

/-- A dynamic Lua value (`lua.LValue`).  A callable is modelled by the values
it returns: `rets n` is the single value the function returns at its `n`-th
invocation (the interpreter is single-threaded, so a pure function of the
invocation count captures a stateful Lua closure's observable behaviour).
`table arr hash` is gopher-lua's `LTable`: `arr` is the array part (keys
`1..arr.length`), `hash` the remaining entries in insertion order. -/
inductive LuaValue : Type where
  | nil  : LuaValue
  | bool (b : Bool) : LuaValue
  | str  (s : String) : LuaValue
  | num  (n : Int) : LuaValue
  | func (rets : Nat → LuaValue) : LuaValue
  | table (arr : List LuaValue) (hash : List (LuaValue × LuaValue)) : LuaValue
  | userdata (kind : UDKind) (id : Nat) : LuaValue

/-- Lua raw equality on table keys.  Scalars compare by value; reference
values (functions, tables) compare by identity — two occurrences in this
model are distinct references, and the embedded code only ever probes tables
with string and integer keys, so they compare unequal here; userdata
handles compare by the pointer they wrap. -/
def luaKeyEq : LuaValue → LuaValue → Bool
  | .nil, .nil => true
  | .bool a, .bool b => a == b
  | .str a, .str b => a == b
  | .num a, .num b => a == b
  | .userdata k a, .userdata k' b => k == k' && a == b
  | _, _ => false

/-- Whether a value is `lua.LNil`. -/
def isNil : LuaValue → Bool
  | .nil => true
  | _ => false

/-- Source `toBool`: succeeds exactly on `lua.LBool`. -/
def toBool : LuaValue → Option Bool
  | .bool b => some b
  | _ => none

/-- Source `toString`: succeeds exactly on `lua.LString` (no coercion of
numbers or booleans). -/
def toStr : LuaValue → Option String
  | .str s => some s
  | _ => none

/-- Source `toLTable`: succeeds exactly on `*lua.LTable`, returning its two
parts. -/
def toLTable : LuaValue → Option (List LuaValue × List (LuaValue × LuaValue))
  | .table arr hash => some (arr, hash)
  | _ => none

/-- Whether a value is a `*lua.LFunction` (source `toLFunction`). -/
def isLFunction : LuaValue → Bool
  | .func _ => true
  | _ => false

/-- Lookup in the hash part of a table (first entry whose key raw-equals the
probe; `nil` when absent — a Lua table never stores `nil` values). -/
def rawGetHash : List (LuaValue × LuaValue) → LuaValue → LuaValue
  | [], _ => .nil
  | (k, v) :: rest, key => if luaKeyEq k key then v else rawGetHash rest key

/-- gopher-lua `RawGetString`: string keys live in the hash part. -/
def rawGetString (hash : List (LuaValue × LuaValue)) (s : String) : LuaValue :=
  rawGetHash hash (.str s)

/-- gopher-lua `RawGetInt i`: index into the array part for `1 ≤ i ≤ MaxN`,
otherwise probe the hash part with the numeric key. -/
def rawGetInt (arr : List LuaValue) (hash : List (LuaValue × LuaValue)) (i : Int) : LuaValue :=
  if 1 ≤ i ∧ i ≤ arr.length then arr.getD (i - 1).toNat .nil
  else rawGetHash hash (.num i)

/-- The entries `ForEach` visits, in order: the array part under keys
`1..n`, then the hash part in insertion order. -/
def forEachEntries (arr : List LuaValue) (hash : List (LuaValue × LuaValue)) :
    List (LuaValue × LuaValue) :=
  (arr.enum.map fun p => (LuaValue.num (p.1 + 1), p.2)) ++ hash

/-- Source `toSlice`, via `toGoValue`: a table whose array part is non-empty
becomes the list of its array-part elements; a table with an empty array
part becomes a Go map, accepted (as the empty slice) only when that map is
empty; everything else is refused.  We return the raw `LuaValue` elements:
`toGoValue` turns exactly the `LString` elements into Go `string`s, so the
`x.(string)` type assertions downstream succeed exactly on `.str` elements. -/
def toSlice : LuaValue → Option (List LuaValue)
  | .table arr hash =>
    if arr.length != 0 then some arr
    else if hash.isEmpty then some []
    else none
  | _ => none

/-- An abstraction of Lua's textual rendering of a value, standing in for the
`%v` interpolations in the source's error messages (the exact rendering of a
value in a message is outside this model; which message fires is in it). -/
def luaDisplay : LuaValue → String
  | .nil => "nil"
  | .bool b => if b then "true" else "false"
  | .str s => s
  | .num n => toString n
  | .func _ => "function"
  | .table _ _ => "table"
  | .userdata _ _ => "userdata"

/-- Go map assignment `m[k] = v` on an association list: overwrite the first
binding of `k` in place, or append a new binding. -/
def mapSet {α : Type} : List (String × α) → String → α → List (String × α)
  | [], k, v => [(k, v)]
  | (k', v') :: rest, k, v =>
    if k' == k then (k, v) :: rest else (k', v') :: mapSet rest k v

/-- One canonical script segment: a Go `map[string]string`, guaranteed by the
normalizer to contain the key `"code"`. -/
abbrev Segment := List (String × String)

mutual

/-- Source `toScript` (the script normalizer): a string becomes the single
segment `[{code: value}]`; a table with an empty array part ("record") must
contain `"code"` and has every entry coerced to a string and merged into one
segment; a table with a non-empty array part ("array") is processed in index
order, invoking callable elements and splicing the normalized segments of
their return values in place; anything else is fatal. -/
def toScript : LuaValue → Except String (List Segment)
  | .table arr hash =>
    if arr.length == 0 then
      if isNil (rawGetString hash "code") then
        .error "if a 'script' entry is table, it has to have 'code' property."
      else
        match scriptRecord (forEachEntries [] hash) [] with
        | .error e => .error e
        | .ok m => .ok [m]
    else
      scriptArray arr
  | .str s => .ok [[("code", s)]]
  | _ => .error "'script' got a invalid value."

/-- The record branch of `toScript`: the `ForEach` loop that coerces every
entry of the table to a string (`true`/`false` for booleans; any other value
type is fatal), requiring string keys, and merges them into one segment. -/
def scriptRecord : List (LuaValue × LuaValue) → Segment → Except String Segment
  | [], m => .ok m
  | (k, v) :: rest, m =>
    match toStr v with
    | some vs =>
      match toStr k with
      | some ks => scriptRecord rest (mapSet m ks vs)
      | none => .error "if a 'script' entry is table, it's property has to be string."
    | none =>
      match toBool v with
      | some vb =>
        match toStr k with
        | some ks => scriptRecord rest (mapSet m ks (if vb then "true" else "false"))
        | none => .error "if a 'script' entry is table, it's property has to be string."
      | none => .error "if a 'script' entry is table, it's value has to be string or bool."

/-- The array branch of `toScript`: the `for i := 1; i <= maxn` loop over the
array part.  A callable element is invoked with no arguments (`rets 0` is the
value that invocation returns) and the normalized segments of its return
value are spliced in place; a non-callable element is normalized and its
segments appended. -/
def scriptArray : List LuaValue → Except String (List Segment)
  | [] => .ok []
  | .func rets :: rest =>
    match toScript (rets 0) with
    | .error e => .error e
    | .ok segs =>
      match scriptArray rest with
      | .error e => .error e
      | .ok more => .ok (segs ++ more)
  | e :: rest =>
    match toScript e with
    | .error e => .error e
    | .ok segs =>
      match scriptArray rest with
      | .error e => .error e
      | .ok more => .ok (segs ++ more)

end

/-! ## Entities and registries

The Go entity structs (`Host`, `Task`, `Driver`, `Job`) are reconstructed
from their uses in the source.  Go pointers between entities (`Child`,
`Parent`, a job's sub-registries) become arena indices into per-kind arenas
held in `EsshState`; the global maps `Hosts`, `Tasks`, `Drivers`, `Jobs`
become association lists from name to arena index.  The arena only ever
grows: it records every instance ever allocated, so that a shadowed
instance stays a well-defined object we can state reachability about. -/

/-- The registry scope (`Registry.Type` in the source): the global registry
or a project-local one. -/
inductive RegistryType : Type where
  | global : RegistryType
  | localScope : RegistryType
deriving DecidableEq, Repr

/-- The Go `Host` struct, reconstructed from its uses: raw declared-value
bag `LValues`, SSH passthrough map, semantic fields, and the override-chain
pointers `Child` (the instance this one shadows) and `Parent` (the instance
shadowing this one), as arena indices.  Hook lists keep the bridged values
opaquely, as the source does. -/
structure Host where
  Name : String := ""
  Registry : Option RegistryType := none
  Child : Option Nat := none
  Parent : Option Nat := none
  LValues : List (String × LuaValue) := []
  SSHConfig : List (String × String) := []
  Props : List (String × String) := []
  HooksBeforeConnect : List LuaValue := []
  HooksAfterConnect : List LuaValue := []
  HooksAfterDisconnect : List LuaValue := []
  Description : String := ""
  Hidden : Bool := false
  Tags : List String := []

/-- `NewHost` (definition not among the provided sources): a zero-valued
host with initialized empty maps. -/
def NewHost : Host := {}

/-- The engine resolver a driver holds (`Driver.Engine`, a Go closure
`func(*Driver) (string, error)`): built from a fixed string or from a Lua
callback.  For a callback, `rets n` is the value the Lua function returns at
its `n`-th invocation (it also receives the driver handle as argument). -/
inductive EngineResolver : Type where
  | fromString (s : String) : EngineResolver
  | fromFunc (rets : Nat → LuaValue) : EngineResolver

/-- The Go `Driver` struct, reconstructed from its uses. -/
structure Driver where
  Name : String := ""
  Registry : Option RegistryType := none
  Child : Option Nat := none
  Parent : Option Nat := none
  LValues : List (String × LuaValue) := []
  Engine : Option EngineResolver := none

/-- `NewDriver` (definition not among the provided sources): a zero-valued
driver. -/
def NewDriver : Driver := {}

/-- The Go `Task` struct, reconstructed from its uses.  `Prepare` keeps the
assigned Lua callback value (the source wraps it in a Go closure whose
behaviour no verified claim inspects). -/
structure Task where
  Name : String := ""
  Registry : Option RegistryType := none
  Child : Option Nat := none
  Parent : Option Nat := none
  LValues : List (String × LuaValue) := []
  Backend : String := ""
  Targets : List String := []
  Filters : List String := []
  Description : String := ""
  Pty : Bool := false
  Driver : String := ""
  Parallel : Bool := false
  Privileged : Bool := false
  Disabled : Bool := false
  Hidden : Bool := false
  Script : List Segment := []
  File : String := ""
  UsePrefix : Bool := false
  Prefix : String := ""
  Prepare : Option LuaValue := none
  Props : List (String × String) := []
  Args : List String := []

/-- `NewTask` (definition not among the provided sources): a zero-valued
task. -/
def NewTask : Task := {}

/-- The Go `Job` struct, reconstructed from its uses and from the spec's
data model: name, description, hidden flag, prepare callback, the mirrored
declared-value table `LValues`, and three job-local sub-registries mapping
names to arena indices.  Note that, unlike Host/Task/Driver, a Job carries
no `Child`/`Parent` override pointers (`registerJob` sets none and the
spec's data model lists none). -/
structure Job where
  Name : String := ""
  LValues : List (String × LuaValue) := []
  Description : String := ""
  Hidden : Bool := false
  Prepare : Option LuaValue := none
  Hosts : List (String × Nat) := []
  Tasks : List (String × Nat) := []
  Drivers : List (String × Nat) := []

/-- `NewJob` (definition not among the provided sources): a zero-valued
job. -/
def NewJob : Job := {}

/-- The process-wide interpreter state the registration functions touch: the
per-kind arenas (every instance ever allocated, indexed by allocation
order), the global name registries `Hosts`/`Tasks`/`Drivers`/`Jobs` mapping
a name to the arena index of its latest instance, the current registry
scope, and the arena index standing for the package-global `DefaultDriver`
instance. -/
structure EsshState where
  currentRegistry : RegistryType := .localScope
  hostArena : List Host := []
  Hosts : List (String × Nat) := []
  taskArena : List Task := []
  Tasks : List (String × Nat) := []
  driverArena : List Driver := []
  Drivers : List (String × Nat) := []
  jobArena : List Job := []
  Jobs : List (String × Nat) := []
  defaultDriverId : Nat := 0

/-- Read an arena slot (total, with a default for an out-of-range index). -/
def hostArenaGet (s : EsshState) (i : Nat) : Host := s.hostArena.getD i NewHost

/-- Read a task arena slot. -/
def taskArenaGet (s : EsshState) (i : Nat) : Task := s.taskArena.getD i NewTask

/-- Read a driver arena slot. -/
def driverArenaGet (s : EsshState) (i : Nat) : Driver := s.driverArena.getD i NewDriver

/-- Read a job arena slot. -/
def jobArenaGet (s : EsshState) (i : Nat) : Job := s.jobArena.getD i NewJob

/-- Source `registerHost`: allocate a fresh host with the given name and the
current registry; when an instance of the same name already exists, the new
instance's `Child` points at it and its `Parent` is redirected to the new
instance; finally the global map is updated to the new instance.  Returns the
new instance's arena index. -/
def registerHost (s : EsshState) (name : String) : EsshState × Nat :=
  let hid := s.hostArena.length
  let child := List.lookup name s.Hosts
  let h : Host := { NewHost with Name := name, Registry := some s.currentRegistry, Child := child }
  let arena := s.hostArena ++ [h]
  let arena :=
    match child with
    | some cid => arena.set cid { arena.getD cid NewHost with Parent := some hid }
    | none => arena
  ({ s with hostArena := arena, Hosts := mapSet s.Hosts name hid }, hid)

/-- Source `registerTask`: identical shadowing discipline for tasks. -/
def registerTask (s : EsshState) (name : String) : EsshState × Nat :=
  let tid := s.taskArena.length
  let child := List.lookup name s.Tasks
  let t : Task := { NewTask with Name := name, Registry := some s.currentRegistry, Child := child }
  let arena := s.taskArena ++ [t]
  let arena :=
    match child with
    | some cid => arena.set cid { arena.getD cid NewTask with Parent := some tid }
    | none => arena
  ({ s with taskArena := arena, Tasks := mapSet s.Tasks name tid }, tid)

/-- Source `registerDriver`: identical shadowing discipline for drivers. -/
def registerDriver (s : EsshState) (name : String) : EsshState × Nat :=
  let did := s.driverArena.length
  let child := List.lookup name s.Drivers
  let d : Driver := { NewDriver with Name := name, Registry := some s.currentRegistry, Child := child }
  let arena := s.driverArena ++ [d]
  let arena :=
    match child with
    | some cid => arena.set cid { arena.getD cid NewDriver with Parent := some did }
    | none => arena
  ({ s with driverArena := arena, Drivers := mapSet s.Drivers name did }, did)

/-- Source `registerJob`: allocate a fresh job and overwrite the `Jobs` map
entry.  Unlike the other three kinds, `registerJob` establishes no
`Child`/`Parent` link (and `Job` has no such fields): the previous
same-named instance is simply no longer referenced. -/
def registerJob (s : EsshState) (name : String) : EsshState × Nat :=
  let jid := s.jobArena.length
  let j : Job := { NewJob with Name := name }
  ({ s with jobArena := s.jobArena ++ [j], Jobs := mapSet s.Jobs name jid }, jid)

/-- Whether the state still holds any reference to job instance `jid`: jobs
carry no override pointers, so the only references to a job are the `Jobs`
map entries. -/
def jobReferenced (s : EsshState) (jid : Nat) : Bool :=
  (s.Jobs.map Prod.snd).contains jid

/-! ## Field updaters

One function per entity kind, mirroring `updateHost` / `updateTask` /
`updateDriver` / `updateJob`.  Each first records the raw assignment in the
entity's `LValues` bag (the source does this before any validation), then
dispatches on the field name.  A `panic` or `L.RaiseError` in the source is
an `.error` carrying the source's message text. -/

/-- The `props` `ForEach` loop shared verbatim by `updateHost` and
`updateTask`: every key and every value of the table must be a string. -/
def propsFromTable : List (LuaValue × LuaValue) → List (String × String) →
    Except String (List (String × String))
  | [], acc => .ok acc
  | (k, v) :: rest, acc =>
    match toStr k with
    | none => .error ("props table's key must be a string: " ++ luaDisplay k)
    | some ks =>
      match toStr v with
      | none => .error ("props table's value must be a string: " ++ luaDisplay v)
      | some vs => propsFromTable rest (mapSet acc ks vs)

/-- The `tags` `ForEach` loop of `updateHost`: every value must be a string;
values are appended in visit order. -/
def tagsFromTable : List (LuaValue × LuaValue) → List String → Except String (List String)
  | [], acc => .ok acc
  | (_, v) :: rest, acc =>
    match toStr v with
    | some vs => tagsFromTable rest (acc ++ [vs])
    | none => .error "unsupported format of tags."

/-- Whether the key's first character is upper-case (`unicode.IsUpper` on
the first rune; an empty key has no first rune and counts as not upper). -/
def firstCharIsUpper (key : String) : Bool :=
  match key.data with
  | [] => false
  | c :: _ => c.isUpper

/-- Source `updateHost`: a key starting with an upper-case character is an
SSH passthrough field and must coerce to a string (note: that failure's
message does not name the field); any other key is dispatched against the
closed semantic schema, with unknown keys fatal. -/
def updateHost (h : Host) (key : String) (value : LuaValue) : Except String Host :=
  let h := { h with LValues := mapSet h.LValues key value }
  if firstCharIsUpper key then
    match toStr value with
    | some valuestr => .ok { h with SSHConfig := mapSet h.SSHConfig key valuestr }
    | none => .error "SSH property must be string"
  else
    match key with
    | "props" =>
      match toLTable value with
      | some (arr, hash) =>
        match propsFromTable (forEachEntries arr hash) [] with
        | .error e => .error e
        | .ok ps => .ok { h with Props := ps }
      | none => .error ("invalid value of a host's field '" ++ key ++ "'.")
    | "hooks_before_connect" =>
      match toLTable value with
      | some (arr, _) => .ok { h with HooksBeforeConnect := arr }
      | none => .error ("invalid value of a host's field '" ++ key ++ "'.")
    | "hooks_after_connect" =>
      match toLTable value with
      | some (arr, _) => .ok { h with HooksAfterConnect := arr }
      | none => .error ("invalid value of a host's field '" ++ key ++ "'.")
    | "hooks_after_disconnect" =>
      match toLTable value with
      | some (arr, _) => .ok { h with HooksAfterDisconnect := arr }
      | none => .error ("invalid value of a host's field '" ++ key ++ "'.")
    | "description" =>
      match toStr value with
      | some descStr => .ok { h with Description := descStr }
      | none => .error ("invalid value of a host's field '" ++ key ++ "'.")
    | "hidden" =>
      match toBool value with
      | some hiddenBool => .ok { h with Hidden := hiddenBool }
      | none => .error ("invalid value of a host's field '" ++ key ++ "'.")
    | "tags" =>
      match toLTable value with
      | some (arr, hash) =>
        match tagsFromTable (forEachEntries arr hash) [] with
        | .error e => .error e
        | .ok ts => .ok { h with Tags := ts }
      | none => .error ("invalid value of a host's field '" ++ key ++ "'.")
    | _ => .error ("unsupported host's field '" ++ key ++ "'.")

/-- The backend name constants (`TASK_BACKEND_LOCAL` / `TASK_BACKEND_REMOTE`;
definitions not among the provided sources — the spec fixes the backend set
to local and remote). -/
def TASK_BACKEND_LOCAL : String := "local"

/-- See `TASK_BACKEND_LOCAL`. -/
def TASK_BACKEND_REMOTE : String := "remote"

/-- Source `updateTask`.  Faithfully kept quirks: the `backend` case has no
else-branch, so a non-string `backend` value is silently accepted (only the
raw bag records it); `script`/`script_file` each re-check the mutual
exclusion after storing their field. -/
def updateTask (task : Task) (key : String) (value : LuaValue) : Except String Task :=
  let task := { task with LValues := mapSet task.LValues key value }
  match key with
  | "backend" =>
    match toStr value with
    | some backendStr =>
      let task := { task with Backend := backendStr }
      if backendStr != TASK_BACKEND_LOCAL && backendStr != TASK_BACKEND_REMOTE then
        .error ("backend must be '" ++ TASK_BACKEND_LOCAL ++ "' or '" ++ TASK_BACKEND_REMOTE ++ "'.")
      else .ok task
    | none => .ok task
  | "targets" =>
    match toStr value with
    | some targetsStr => .ok { task with Targets := [targetsStr] }
    | none =>
      match toSlice value with
      | some targetsSlice => .ok { task with Targets := targetsSlice.filterMap toStr }
      | none => .error ("invalid value of a task's field '" ++ key ++ "'.")
  | "filters" =>
    match toStr value with
    | some filtersStr => .ok { task with Filters := [filtersStr] }
    | none =>
      match toSlice value with
      | some filtersSlice => .ok { task with Filters := filtersSlice.filterMap toStr }
      | none => .error ("invalid value of a task's field '" ++ key ++ "'.")
  | "description" =>
    match toStr value with
    | some descStr => .ok { task with Description := descStr }
    | none => .error ("invalid value of a task's field '" ++ key ++ "'.")
  | "pty" =>
    match toBool value with
    | some ptyBool => .ok { task with Pty := ptyBool }
    | none => .error ("invalid value of a task's field '" ++ key ++ "'.")
  | "driver" =>
    match toStr value with
    | some driverStr => .ok { task with Driver := driverStr }
    | none => .error ("invalid value of a task's field '" ++ key ++ "'.")
  | "parallel" =>
    match toBool value with
    | some parallelBool => .ok { task with Parallel := parallelBool }
    | none => .error ("invalid value of a task's field '" ++ key ++ "'.")
  | "privileged" =>
    match toBool value with
    | some privilegedBool => .ok { task with Privileged := privilegedBool }
    | none => .error ("invalid value of a task's field '" ++ key ++ "'.")
  | "disabled" =>
    match toBool value with
    | some disabledBool => .ok { task with Disabled := disabledBool }
    | none => .error ("invalid value of a task's field '" ++ key ++ "'.")
  | "hidden" =>
    match toBool value with
    | some hiddenBool => .ok { task with Hidden := hiddenBool }
    | none => .error ("invalid value of a task's field '" ++ key ++ "'.")
  | "script" =>
    match toScript value with
    | .error e => .error e
    | .ok script =>
      -- the source stores `task.Script` first and then re-checks
      -- `task.File != "" && len(task.Script) > 0` on the updated task
      if task.File ≠ "" ∧ script.length > 0 then
        .error "invalid task definition: can't use 'script_file' and 'script' at the same time."
      else .ok { task with Script := script }
  | "script_file" =>
    match toStr value with
    | some fileStr =>
      -- the source stores `task.File` first and then re-checks the same
      -- condition on the updated task
      if fileStr ≠ "" ∧ task.Script.length > 0 then
        .error "invalid task definition: can't use 'script_file' and 'script' at the same time."
      else .ok { task with File := fileStr }
    | none => .error ("invalid value of a task's field '" ++ key ++ "'.")
  | "prefix" =>
    match toBool value with
    | some prefixBool => .ok { task with UsePrefix := prefixBool }
    | none =>
      match toStr value with
      | some prefixStr => .ok { task with UsePrefix := true, Prefix := prefixStr }
      | none => .error ("invalid value of a task's field '" ++ key ++ "'.")
  | "prepare" =>
    if isLFunction value then .ok { task with Prepare := some value }
    else .error "prepare have to be a function."
  | "props" =>
    match toLTable value with
    | some (arr, hash) =>
      match propsFromTable (forEachEntries arr hash) [] with
      | .error e => .error e
      | .ok ps => .ok { task with Props := ps }
    | none => .error ("invalid value of a task's field '" ++ key ++ "'.")
  | "args" =>
    match toSlice value with
    | some argsSlice => .ok { task with Args := argsSlice.filterMap toStr }
    | none => .error ("invalid value of a task's field '" ++ key ++ "'.")
  | _ => .error ("unsupported task's field '" ++ key ++ "'.")

/-- Source `updateDriver`.  Its `switch` has exactly one case, `engine`, and
no default: assigning any other key records the raw value and silently
succeeds.  An `engine` callback is wrapped into a resolver that re-invokes
the Lua function on every resolution; a fixed string becomes a constant
resolver. -/
def updateDriver (driver : Driver) (key : String) (value : LuaValue) : Except String Driver :=
  let driver := { driver with LValues := mapSet driver.LValues key value }
  match key with
  | "engine" =>
    match value with
    | .func rets => .ok { driver with Engine := some (.fromFunc rets) }
    | _ =>
      match toStr value with
      | some engineStr => .ok { driver with Engine := some (.fromString engineStr) }
      | none => .error "driver 'engine' have to be a function or string."
  | _ => .ok driver

/-- One resolution of a driver's engine (`driver.Engine(driver)`): a
constant resolver returns its string; a callback resolver invokes the Lua
function — `rets n` being the value its `n`-th invocation returns — and
requires a string result.  Nothing is cached: the result is recomputed from
the callback at every resolution. -/
def resolveEngine : EngineResolver → Nat → Except String String
  | .fromString engineStr, _ => .ok engineStr
  | .fromFunc rets, n =>
    match toStr (rets n) with
    | some retStr => .ok retStr
    | none => .error "driver engine has to return a string."

/-- Source `setupHost`: apply `updateHost` for every table entry whose key
is a string, in `ForEach` order; entries with non-string keys are skipped. -/
def setupHost (h : Host) : List (LuaValue × LuaValue) → Except String Host
  | [] => .ok h
  | (k, v) :: rest =>
    match toStr k with
    | some kstr =>
      match updateHost h kstr v with
      | .error e => .error e
      | .ok h' => setupHost h' rest
    | none => setupHost h rest

/-- Source `setupTask`: the same entry loop over `updateTask`. -/
def setupTask (t : Task) : List (LuaValue × LuaValue) → Except String Task
  | [] => .ok t
  | (k, v) :: rest =>
    match toStr k with
    | some kstr =>
      match updateTask t kstr v with
      | .error e => .error e
      | .ok t' => setupTask t' rest
    | none => setupTask t rest

/-- Source `setupDriver`: the same entry loop over `updateDriver`. -/
def setupDriver (d : Driver) : List (LuaValue × LuaValue) → Except String Driver
  | [] => .ok d
  | (k, v) :: rest =>
    match toStr k with
    | some kstr =>
      match updateDriver d kstr v with
      | .error e => .error e
      | .ok d' => setupDriver d' rest
    | none => setupDriver d rest

/-- `DefaultTaskName` (definition not among the provided sources; the spec
fixes that an anonymous `task(config)` declaration registers under one fixed
default name — its exact text is immaterial to the claims). -/
def DefaultTaskName : String := "default"

/-- `DefaultDriverName`, the name under which the built-in default driver is
registered (definition not among the provided sources). -/
def DefaultDriverName : String := "default"

/-- Source `esshTask`, the `task(...)` constructor: a table as first
argument declares an anonymous task under `DefaultTaskName`; a string name
alone registers an empty task; a string name plus a config table registers
and configures one.  Returns the arena index of the task the pushed
userdata wraps. -/
def esshTask (s : EsshState) (args : List LuaValue) : Except String (EsshState × Nat) :=
  match args.head? with
  | none => .error "bad argument #1 to task"
  | some first =>
    match toLTable first with
    | some (arr, hash) =>
      let (s1, tid) := registerTask s DefaultTaskName
      match setupTask (taskArenaGet s1 tid) (forEachEntries arr hash) with
      | .error e => .error e
      | .ok t => .ok ({ s1 with taskArena := s1.taskArena.set tid t }, tid)
    | none =>
      match toStr first with
      | none => .error "bad argument #1 to task (string expected)"
      | some name =>
        if args.length == 1 then
          .ok (registerTask s name)
        else if args.length == 2 then
          match toLTable (args.getD 1 .nil) with
          | none => .error "bad argument #2 to task (table expected)"
          | some (arr, hash) =>
            let (s1, tid) := registerTask s name
            match setupTask (taskArenaGet s1 tid) (forEachEntries arr hash) with
            | .error e => .error e
            | .ok t => .ok ({ s1 with taskArena := s1.taskArena.set tid t }, tid)
        else .error "task requires 1 or 2 arguments"

/-- `Job.RegisterHost` (definition not among the provided sources; the spec
says a composed entity is registered into the job's matching typed
sub-registry). -/
def JobRegisterHost (j : Job) (name : String) (hid : Nat) : Job :=
  { j with Hosts := mapSet j.Hosts name hid }

/-- `Job.RegisterTask`; see `JobRegisterHost`. -/
def JobRegisterTask (j : Job) (name : String) (tid : Nat) : Job :=
  { j with Tasks := mapSet j.Tasks name tid }

/-- `Job.RegisterDriver`; see `JobRegisterHost`. -/
def JobRegisterDriver (j : Job) (name : String) (did : Nat) : Job :=
  { j with Drivers := mapSet j.Drivers name did }

/-- The `hosts` map loop of `updateJob`: each entry must be a `name → config
table` pair; the host is registered at top level (also mutating the global
registry), configured, and attached to the job. -/
def jobHostsFromTable (s : EsshState) (j : Job) :
    List (LuaValue × LuaValue) → Except String (EsshState × Job)
  | [] => .ok (s, j)
  | (k, v) :: rest =>
    match toStr k with
    | none => .error ("expected string of host's name but got '" ++ luaDisplay k ++ "'\n")
    | some name =>
      match toLTable v with
      | none => .error ("expected table of host's config but got '" ++ luaDisplay v ++ "'\n")
      | some (arr, hash) =>
        let (s1, hid) := registerHost s name
        match setupHost (hostArenaGet s1 hid) (forEachEntries arr hash) with
        | .error e => .error e
        | .ok h =>
          jobHostsFromTable { s1 with hostArena := s1.hostArena.set hid h }
            (JobRegisterHost j name hid) rest

/-- The `tasks` map loop of `updateJob`; see `jobHostsFromTable`. -/
def jobTasksFromTable (s : EsshState) (j : Job) :
    List (LuaValue × LuaValue) → Except String (EsshState × Job)
  | [] => .ok (s, j)
  | (k, v) :: rest =>
    match toStr k with
    | none => .error ("expected string of task's name but got '" ++ luaDisplay k ++ "'\n")
    | some name =>
      match toLTable v with
      | none => .error ("expected table of task's config but got '" ++ luaDisplay v ++ "'\n")
      | some (arr, hash) =>
        let (s1, tid) := registerTask s name
        match setupTask (taskArenaGet s1 tid) (forEachEntries arr hash) with
        | .error e => .error e
        | .ok t =>
          jobTasksFromTable { s1 with taskArena := s1.taskArena.set tid t }
            (JobRegisterTask j name tid) rest

/-- The `drivers` map loop of `updateJob`; see `jobHostsFromTable`. -/
def jobDriversFromTable (s : EsshState) (j : Job) :
    List (LuaValue × LuaValue) → Except String (EsshState × Job)
  | [] => .ok (s, j)
  | (k, v) :: rest =>
    match toStr k with
    | none => .error ("expected string of driver's name but got '" ++ luaDisplay k ++ "'\n")
    | some name =>
      match toLTable v with
      | none => .error ("expected table of driver's config but got '" ++ luaDisplay v ++ "'\n")
      | some (arr, hash) =>
        let (s1, did) := registerDriver s name
        match setupDriver (driverArenaGet s1 did) (forEachEntries arr hash) with
        | .error e => .error e
        | .ok d =>
          jobDriversFromTable { s1 with driverArena := s1.driverArena.set did d }
            (JobRegisterDriver j name did) rest

/-- Source `updateJob` (the string-keyed pass of the Job composer):
`description`/`hidden`/`prepare` like the other updaters; a map-valued
`hosts`/`tasks`/`drivers` entry replaces the whole corresponding
sub-registry (the `drivers` case first seeding the built-in default
driver); unknown keys are fatal, naming the field.  Note the non-table
errors for `hosts`/`tasks`/`drivers` do not name the field. -/
def updateJob (s : EsshState) (job : Job) (key : String) (value : LuaValue) :
    Except String (EsshState × Job) :=
  let job := { job with LValues := mapSet job.LValues key value }
  match key with
  | "description" =>
    match toStr value with
    | some descStr => .ok (s, { job with Description := descStr })
    | none => .error ("invalid value of a job's field '" ++ key ++ "'.")
  | "hidden" =>
    match toBool value with
    | some hiddenBool => .ok (s, { job with Hidden := hiddenBool })
    | none => .error ("invalid value of a job's field '" ++ key ++ "'.")
  | "prepare" =>
    if isLFunction value then .ok (s, { job with Prepare := some value })
    else .error "prepare have to be a function."
  | "hosts" =>
    match toLTable value with
    | some (arr, hash) => jobHostsFromTable s { job with Hosts := [] } (forEachEntries arr hash)
    | none => .error ("expected table but got '" ++ luaDisplay value ++ "'\n")
  | "tasks" =>
    match toLTable value with
    | some (arr, hash) => jobTasksFromTable s { job with Tasks := [] } (forEachEntries arr hash)
    | none => .error ("expected table but got '" ++ luaDisplay value ++ "'\n")
  | "drivers" =>
    match toLTable value with
    | some (arr, hash) =>
      jobDriversFromTable s { job with Drivers := [(DefaultDriverName, s.defaultDriverId)] }
        (forEachEntries arr hash)
    | none => .error ("expected table but got '" ++ luaDisplay value ++ "'\n")
  | _ => .error ("unsupported job's field '" ++ key ++ "'.")

/-! ## Host selection queries -/

/-- The `HostQuery` three-slot builder.  `datasource = none` is the default
(the global host registry); `some m` is a job's host sub-registry `m`. -/
structure HostQuery where
  datasource : Option (List (String × Nat)) := none
  selections : List String := []
  filters : List String := []

/-- Modelled from the spec: `NewHostQuery`, a query with default slots
(datasource the global host registry, no selections, no filters).  The Go
definition is not among the provided sources. -/
def NewHostQuery : HostQuery := {}

/-- Modelled from the spec: `HostQuery.AppendSelections` appends match
expressions to the ordered selection list (Go definition not among the
provided sources). -/
def AppendSelections (q : HostQuery) (ss : List String) : HostQuery :=
  { q with selections := q.selections ++ ss }

/-- Modelled from the spec: `HostQuery.AppendFilters` appends match
expressions to the ordered filter list (Go definition not among the
provided sources). -/
def AppendFilters (q : HostQuery) (fs : List String) : HostQuery :=
  { q with filters := q.filters ++ fs }

/-- Modelled from the spec: `HostQuery.SetDatasource` switches the
datasource to a job's host sub-registry (Go definition not among the
provided sources). -/
def SetDatasource (q : HostQuery) (ds : List (String × Nat)) : HostQuery :=
  { q with datasource := some ds }

/-- Modelled from the spec: a match expression succeeds against a host if it
equals the host's name or one of the host's tags. -/
def hostMatchExpr (h : Host) (expr : String) : Bool :=
  h.Name == expr || h.Tags.contains expr

/-- Modelled from the spec: `HostQuery.GetHosts` evaluates the query over a
datasource in stable declaration order; a host is included iff it matches
any selection (an empty selection list matches everything) and every filter
(Go definition not among the provided sources). -/
def GetHosts (q : HostQuery) (datasource : List Host) : List Host :=
  datasource.filter fun h =>
    (q.selections.isEmpty || q.selections.any (hostMatchExpr h)) &&
      q.filters.all (hostMatchExpr h)

/-- Source `esshSelectHosts` (`select_hosts`): at most two arguments; an
optional leading job handle switches the datasource to that job's host
sub-registry; a string or string-array argument extends the selections, with
non-string array elements silently skipped. -/
def esshSelectHosts (s : EsshState) (args : List LuaValue) : Except String HostQuery :=
  let hostQuery := NewHostQuery
  if args.length > 2 then .error "select_hosts can receive max 2 argument."
  else
    match
      (match args.getD 0 .nil with
       | .userdata .job jid => Except.ok (some jid)
       | .userdata _ _ => Except.error "expected a job but got an other userdata."
       | _ => Except.ok none) with
    | .error e => .error e
    | .ok job =>
      if args.length == 1 then
        match job with
        | none =>
          let value := args.getD 0 .nil
          match toStr value with
          | some selectionsStr => .ok (AppendSelections hostQuery [selectionsStr])
          | none =>
            match toSlice value with
            | some selectionsSlice =>
              .ok (AppendSelections hostQuery (selectionsSlice.filterMap toStr))
            | none => .error "select_hosts can receive string or array table of strings."
        | some jid => .ok (SetDatasource hostQuery (jobArenaGet s jid).Hosts)
      else if args.length == 2 then
        match job with
        | some jid =>
          let value := args.getD 1 .nil
          match toStr value with
          | some selectionsStr =>
            .ok (AppendSelections (SetDatasource hostQuery (jobArenaGet s jid).Hosts)
              [selectionsStr])
          | none =>
            match toSlice value with
            | some selectionsSlice =>
              .ok (AppendSelections (SetDatasource hostQuery (jobArenaGet s jid).Hosts)
                (selectionsSlice.filterMap toStr))
            | none => .error "select_hosts can receive string or array table of strings."
        | none => .error "expected a job but got an other userdata."
      else .ok hostQuery

/-- The `filter` method closure pushed by `hostQueryIndex`: requires exactly
one argument beside the query, a string or string-array, and appends it to
the filters, with non-string array elements silently skipped. -/
def hostQueryFilter (q : HostQuery) (value : LuaValue) : Except String HostQuery :=
  match toStr value with
  | some filtersStr => .ok (AppendFilters q [filtersStr])
  | none =>
    match toSlice value with
    | some filtersSlice => .ok (AppendFilters q (filtersSlice.filterMap toStr))
    | none => .error "filter can receive string or array table of strings."

/-- What a Go function registered in gopher-lua can push as results: one of
the Go closures of `hostQueryIndex` (identified by a label), or `lua.LNil`. -/
inductive HQPush : Type where
  | goFunc (label : String) : HQPush
  | lnil : HQPush
deriving DecidableEq, Repr

/-- gopher-lua's result convention for a Go function: it pushes values and
returns a count `n`; the topmost `n` pushed values are its results. -/
def luaGFunctionResults (pushed : List HQPush) (nret : Nat) : List HQPush :=
  pushed.drop (pushed.length - nret)

/-- Source `hostQueryIndex`, the `__index` metamethod of a host-query
handle: the pairs (values pushed in order, declared result count) for each
field name.  For `"first"` the source pushes a closure (which itself, when
called, would push a closure returning the first matching host or nil) and
then pushes `lua.LNil`, yet declares a single result. -/
def hostQueryIndexPushes : String → List HQPush × Nat
  | "filter" => ([.goFunc "filter"], 1)
  | "get" => ([.goFunc "get"], 1)
  | "first" => ([.goFunc "firstOuter", .lnil], 1)
  | _ => ([.lnil], 1)

/-- Whether a pushed value can be called (`lua.LNil` cannot; calling it
raises "attempt to call a non-function object"). -/
def isCallable : HQPush → Bool
  | .goFunc _ => true
  | .lnil => false

/-- The body of the inner `first` closure (the intent of the `"first"`
case): the first host `GetHosts` yields, or nil when nothing matches. -/
def firstInner (q : HostQuery) (datasource : List Host) : Option Host :=
  (GetHosts q datasource).head?

/-! ## Module / package importer

`esshImport` plus `Package.Load` (the `Module` type used by `esshImport` has
the same shape as `Package` in `package.go`: `Load`, `IndexFile`, `Dir`,
`Key`, and a captured `Value`).  The filesystem and the embedded evaluator
are external collaborators: the set of existing cache directories (by
sanitized key) is part of the state, and the fetch transport, the entrypoint
check and the entrypoint evaluation are parameters.  I/O the importer
performs is recorded as an event trace. -/

/-- `Package.Key`: the cache key, sanitizing `/` and `:` to `-`
(`strings.Replace` with both single-character patterns, i.e. a
character-wise replacement). -/
def Key (name : String) : String :=
  String.mk (name.data.map fun c => if c == '/' || c == ':' then '-' else c)

/-- The transient `essh.module` table exposed to an entrypoint while it is
being evaluated: the cache path and the import name.  Its presence is the
process-wide "currently importing" marker. -/
structure ModuleVar where
  path : String
  import_path : String
deriving DecidableEq, Repr

/-- The state `esshImport` reads and writes: the current registry's type,
the marker (`essh.module`, nil or set), the memoized `LoadedModules` map
from import name to captured value, and which package cache directories
exist on disk (by sanitized key). -/
structure ImportState where
  registryType : RegistryType := .localScope
  moduleVar : Option ModuleVar := none
  LoadedModules : List (String × LuaValue) := []
  cacheDirs : List String := []

/-- An I/O action of the importer: a go-getter fetch into the cache
directory, or an evaluation of the module's `index.lua` entrypoint. -/
inductive ImportEvent : Type where
  | fetch (name : String) : ImportEvent
  | evalFile (name : String) : ImportEvent
deriving DecidableEq, Repr

/-- The importer's external collaborators: the CLI flags, whether a fetched
cache directory holds the fixed `index.lua` entrypoint, whether the fetch
transport succeeds, and the black-box evaluator: `evalIndex σ name` is the
single value `L.DoFile` leaves on the stack when the entrypoint of `name` is
evaluated in interpreter state `σ`. -/
structure ImportConfig where
  updateFlag : Bool := false
  withGlobalFlag : Bool := false
  indexFileExists : String → Bool := fun _ => true
  fetchSucceeds : String → Bool := fun _ => true
  evalIndex : ImportState → String → LuaValue := fun _ _ => .nil

/-- `Package.Load` (from `package.go`): when not updating and the cache
directory already exists, done with no fetch; otherwise fetch the source
into the cache directory (the `GIT_SSH` workaround and the deprecation
banner are I/O noise outside this model). -/
def PackageLoad (cfg : ImportConfig) (s : ImportState) (name : String) (update : Bool) :
    Except String (ImportState × List ImportEvent) :=
  let key := Key name
  if !update && s.cacheDirs.contains key then .ok (s, [])
  else if cfg.fetchSucceeds key then
    .ok ({ s with cacheDirs := key :: s.cacheDirs }, [.fetch name])
  else .error ("fetch failed: " ++ name)

/-- The update decision of `esshImport`: the global `--update` flag,
suppressed for the global-scope registry unless `--with-global` is set. -/
def importUpdateFlag (cfg : ImportConfig) (s : ImportState) : Bool :=
  if s.registryType == .global && !cfg.withGlobalFlag then false else cfg.updateFlag

/-- The interpreter state in which a module's entrypoint is evaluated: the
loaded state with the `essh.module` marker set to the module's cache path
and import name. -/
def evalStateOf (s : ImportState) (name : String) : ImportState :=
  { s with moduleVar := some { path := Key name, import_path := name } }

/-- Source `esshImport` (`import(name)`): fatal when the `essh.module`
marker is already set (nested import); a pure cache hit when the name is
memoized; otherwise load the package, require the entrypoint, set the
marker, evaluate the entrypoint, clear the marker, and memoize the returned
value.  Returns the new state, the module value, and the I/O trace. -/
def esshImport (cfg : ImportConfig) (s : ImportState) (name : String) :
    Except String (ImportState × LuaValue × List ImportEvent) :=
  match s.moduleVar with
  | some _ => .error "'essh.module' is existed. does not support nested module importing."
  | none =>
    match List.lookup name s.LoadedModules with
    | some v => .ok (s, v, [])
    | none =>
      match PackageLoad cfg s name (importUpdateFlag cfg s) with
      | .error e => .error e
      | .ok (s1, evs) =>
        if !cfg.indexFileExists (Key name) then .error ("invalid module: " ++ name)
        else
          let ret := cfg.evalIndex (evalStateOf s1 name) name
          .ok ({ evalStateOf s1 name with
                  moduleVar := none,
                  LoadedModules := (name, ret) :: s1.LoadedModules },
               ret, evs ++ [.evalFile name])

/-! ## General lemmas about the list combinators -/

theorem getD_append_self {α} {l : List α} {x d : α} : (l ++ [x]).getD l.length d = x := by
  simp [List.getD]

theorem getD_append_of_lt {α} {l : List α} {x d : α} {i : Nat} (h : i < l.length) :
    (l ++ [x]).getD i d = l.getD i d := by
  simp [List.getD, List.getElem?_append, h]

theorem getD_set_of_ne {α} {l : List α} {i j : Nat} {x d : α} (h : i ≠ j) :
    (l.set i x).getD j d = l.getD j d := by
  simp [List.getD, List.getElem?_set_ne h]

theorem getD_set_self_of_lt {α} {l : List α} {i : Nat} {x d : α} (h : i < l.length) :
    (l.set i x).getD i d = x := by
  simp [List.getD, List.getElem?_set_self, h]

theorem lookup_mapSet_self {α : Type} (m : List (String × α)) (k : String) (v : α) :
    List.lookup k (mapSet m k v) = some v := by
  induction m with
  | nil => simp [mapSet, List.lookup]
  | cons p rest ih =>
    obtain ⟨k', v'⟩ := p
    by_cases h : k' = k
    · subst h; simp [mapSet, List.lookup]
    · simp [mapSet, h, List.lookup, ih, beq_eq_false_iff_ne.mpr (Ne.symm h)]

/-! ## Lemmas about the registration functions -/

theorem registerHost_snd (s : EsshState) (name : String) :
    (registerHost s name).2 = s.hostArena.length := by
  unfold registerHost
  cases List.lookup name s.Hosts <;> simp

theorem registerHost_arena_length (s : EsshState) (name : String) :
    (registerHost s name).1.hostArena.length = s.hostArena.length + 1 := by
  unfold registerHost
  cases List.lookup name s.Hosts <;> simp

theorem registerHost_Hosts (s : EsshState) (name : String) :
    (registerHost s name).1.Hosts = mapSet s.Hosts name s.hostArena.length := by
  unfold registerHost
  cases List.lookup name s.Hosts <;> simp

theorem regHost_new_Name (s : EsshState) (name : String) :
    (hostArenaGet (registerHost s name).1 s.hostArena.length).Name = name := by
  unfold registerHost hostArenaGet
  cases hc : List.lookup name s.Hosts with
  | none => simp only []; rw [getD_append_self]
  | some cid =>
    simp only []
    by_cases h : cid = s.hostArena.length
    · subst h; rw [getD_set_self_of_lt (by simp)]; simp [getD_append_self]
    · rw [getD_set_of_ne h, getD_append_self]

theorem regHost_new_Child (s : EsshState) (name : String) :
    (hostArenaGet (registerHost s name).1 s.hostArena.length).Child =
      List.lookup name s.Hosts := by
  unfold registerHost hostArenaGet
  cases hc : List.lookup name s.Hosts with
  | none => simp only []; rw [getD_append_self]
  | some cid =>
    simp only []
    by_cases h : cid = s.hostArena.length
    · subst h; rw [getD_set_self_of_lt (by simp)]; simp [getD_append_self]
    · rw [getD_set_of_ne h, getD_append_self]

theorem regHost_old_Name (s : EsshState) (name : String) {i : Nat}
    (h : i < s.hostArena.length) :
    (hostArenaGet (registerHost s name).1 i).Name = (hostArenaGet s i).Name := by
  unfold registerHost hostArenaGet
  cases hc : List.lookup name s.Hosts with
  | none => simp only []; rw [getD_append_of_lt h]
  | some cid =>
    simp only []
    by_cases hcid : cid = i
    · subst hcid
      rw [getD_set_self_of_lt (by simp; omega)]
      simp [List.getElem?_append, h]
    · rw [getD_set_of_ne hcid, getD_append_of_lt h]

theorem regHost_old_Parent (s : EsshState) (name : String) {cid : Nat}
    (hc : List.lookup name s.Hosts = some cid) (hlt : cid < s.hostArena.length) :
    (hostArenaGet (registerHost s name).1 cid).Parent = some s.hostArena.length := by
  unfold registerHost hostArenaGet
  rw [hc]
  simp only []
  rw [getD_set_self_of_lt (by simp; omega)]

theorem registerTask_snd (s : EsshState) (name : String) :
    (registerTask s name).2 = s.taskArena.length := by
  unfold registerTask
  cases List.lookup name s.Tasks <;> simp

theorem registerTask_arena_length (s : EsshState) (name : String) :
    (registerTask s name).1.taskArena.length = s.taskArena.length + 1 := by
  unfold registerTask
  cases List.lookup name s.Tasks <;> simp

theorem registerTask_Tasks (s : EsshState) (name : String) :
    (registerTask s name).1.Tasks = mapSet s.Tasks name s.taskArena.length := by
  unfold registerTask
  cases List.lookup name s.Tasks <;> simp

theorem regTask_new_Name (s : EsshState) (name : String) :
    (taskArenaGet (registerTask s name).1 s.taskArena.length).Name = name := by
  unfold registerTask taskArenaGet
  cases hc : List.lookup name s.Tasks with
  | none => simp only []; rw [getD_append_self]
  | some cid =>
    simp only []
    by_cases h : cid = s.taskArena.length
    · subst h; rw [getD_set_self_of_lt (by simp)]; simp [getD_append_self]
    · rw [getD_set_of_ne h, getD_append_self]

theorem regTask_new_Child (s : EsshState) (name : String) :
    (taskArenaGet (registerTask s name).1 s.taskArena.length).Child =
      List.lookup name s.Tasks := by
  unfold registerTask taskArenaGet
  cases hc : List.lookup name s.Tasks with
  | none => simp only []; rw [getD_append_self]
  | some cid =>
    simp only []
    by_cases h : cid = s.taskArena.length
    · subst h; rw [getD_set_self_of_lt (by simp)]; simp [getD_append_self]
    · rw [getD_set_of_ne h, getD_append_self]

theorem regTask_old_Name (s : EsshState) (name : String) {i : Nat}
    (h : i < s.taskArena.length) :
    (taskArenaGet (registerTask s name).1 i).Name = (taskArenaGet s i).Name := by
  unfold registerTask taskArenaGet
  cases hc : List.lookup name s.Tasks with
  | none => simp only []; rw [getD_append_of_lt h]
  | some cid =>
    simp only []
    by_cases hcid : cid = i
    · subst hcid
      rw [getD_set_self_of_lt (by simp; omega)]
      simp [List.getElem?_append, h]
    · rw [getD_set_of_ne hcid, getD_append_of_lt h]

theorem regTask_old_Parent (s : EsshState) (name : String) {cid : Nat}
    (hc : List.lookup name s.Tasks = some cid) (hlt : cid < s.taskArena.length) :
    (taskArenaGet (registerTask s name).1 cid).Parent = some s.taskArena.length := by
  unfold registerTask taskArenaGet
  rw [hc]
  simp only []
  rw [getD_set_self_of_lt (by simp; omega)]

theorem registerDriver_snd (s : EsshState) (name : String) :
    (registerDriver s name).2 = s.driverArena.length := by
  unfold registerDriver
  cases List.lookup name s.Drivers <;> simp

theorem registerDriver_arena_length (s : EsshState) (name : String) :
    (registerDriver s name).1.driverArena.length = s.driverArena.length + 1 := by
  unfold registerDriver
  cases List.lookup name s.Drivers <;> simp

theorem registerDriver_Drivers (s : EsshState) (name : String) :
    (registerDriver s name).1.Drivers = mapSet s.Drivers name s.driverArena.length := by
  unfold registerDriver
  cases List.lookup name s.Drivers <;> simp

theorem regDriver_new_Name (s : EsshState) (name : String) :
    (driverArenaGet (registerDriver s name).1 s.driverArena.length).Name = name := by
  unfold registerDriver driverArenaGet
  cases hc : List.lookup name s.Drivers with
  | none => simp only []; rw [getD_append_self]
  | some cid =>
    simp only []
    by_cases h : cid = s.driverArena.length
    · subst h; rw [getD_set_self_of_lt (by simp)]; simp [getD_append_self]
    · rw [getD_set_of_ne h, getD_append_self]

theorem regDriver_new_Child (s : EsshState) (name : String) :
    (driverArenaGet (registerDriver s name).1 s.driverArena.length).Child =
      List.lookup name s.Drivers := by
  unfold registerDriver driverArenaGet
  cases hc : List.lookup name s.Drivers with
  | none => simp only []; rw [getD_append_self]
  | some cid =>
    simp only []
    by_cases h : cid = s.driverArena.length
    · subst h; rw [getD_set_self_of_lt (by simp)]; simp [getD_append_self]
    · rw [getD_set_of_ne h, getD_append_self]

theorem regDriver_old_Name (s : EsshState) (name : String) {i : Nat}
    (h : i < s.driverArena.length) :
    (driverArenaGet (registerDriver s name).1 i).Name = (driverArenaGet s i).Name := by
  unfold registerDriver driverArenaGet
  cases hc : List.lookup name s.Drivers with
  | none => simp only []; rw [getD_append_of_lt h]
  | some cid =>
    simp only []
    by_cases hcid : cid = i
    · subst hcid
      rw [getD_set_self_of_lt (by simp; omega)]
      simp [List.getElem?_append, h]
    · rw [getD_set_of_ne hcid, getD_append_of_lt h]

theorem regDriver_old_Parent (s : EsshState) (name : String) {cid : Nat}
    (hc : List.lookup name s.Drivers = some cid) (hlt : cid < s.driverArena.length) :
    (driverArenaGet (registerDriver s name).1 cid).Parent = some s.driverArena.length := by
  unfold registerDriver driverArenaGet
  rw [hc]
  simp only []
  rw [getD_set_self_of_lt (by simp; omega)]

theorem registerJob_snd (s : EsshState) (name : String) :
    (registerJob s name).2 = s.jobArena.length := rfl

theorem registerJob_Jobs (s : EsshState) (name : String) :
    (registerJob s name).1.Jobs = mapSet s.Jobs name s.jobArena.length := rfl

theorem registerJob_get_new (s : EsshState) (name : String) :
    jobArenaGet (registerJob s name).1 s.jobArena.length = { NewJob with Name := name } := by
  unfold registerJob jobArenaGet
  simp only []
  rw [getD_append_self]

theorem registerJob_arena_length (s : EsshState) (name : String) :
    (registerJob s name).1.jobArena.length = s.jobArena.length + 1 := by
  unfold registerJob
  simp

/-! ## C1: registering the same name twice -/

/-- C1 counterexample (the Job part of the claim fails): registering the job
name "a" twice from the empty state leaves the `Jobs` map pointing at the
second instance (arena slot 1), and that second instance is a fresh job
carrying no override-predecessor link — `Job` has no `Child`/`Parent` fields
and `registerJob` sets none — while the first instance (arena slot 0, which
does hold the first "a" job) is referenced from nowhere.  So for jobs the
first instance does not "remain reachable via the override link": it is not
reachable at all. -/
theorem registerJob_twice_first_unreachable :
    List.lookup "a" (registerJob (registerJob ({} : EsshState) "a").1 "a").1.Jobs = some 1 ∧
    jobArenaGet (registerJob (registerJob ({} : EsshState) "a").1 "a").1 1
        = { NewJob with Name := "a" } ∧
    (jobArenaGet (registerJob (registerJob ({} : EsshState) "a").1 "a").1 0).Name = "a" ∧
    jobReferenced (registerJob (registerJob ({} : EsshState) "a").1 "a").1 0 = false :=
  ⟨rfl, rfl, rfl, rfl⟩

/-- C1 (amended): for Hosts, Tasks and Drivers, registering the same name
twice leaves the registry mapping the name to the second instance only (the
two instances are distinct), the second instance's override-predecessor
(`Child`) points at the first, and the first instance — still carrying the
name — has its `Parent` redirected to the second, so it stays reachable via
the override link.  For Jobs, re-registration merely replaces the map
entry: the second instance is a fresh job with no override link to the
first, which becomes unreachable. -/
theorem register_same_name_twice :
    (∀ (s : EsshState) (name : String),
      List.lookup name (registerHost (registerHost s name).1 name).1.Hosts
          = some (registerHost (registerHost s name).1 name).2 ∧
      (registerHost (registerHost s name).1 name).2 ≠ (registerHost s name).2 ∧
      (hostArenaGet (registerHost (registerHost s name).1 name).1
          (registerHost (registerHost s name).1 name).2).Child
          = some (registerHost s name).2 ∧
      (hostArenaGet (registerHost (registerHost s name).1 name).1
          (registerHost s name).2).Name = name ∧
      (hostArenaGet (registerHost (registerHost s name).1 name).1
          (registerHost s name).2).Parent
          = some (registerHost (registerHost s name).1 name).2) ∧
    (∀ (s : EsshState) (name : String),
      List.lookup name (registerTask (registerTask s name).1 name).1.Tasks
          = some (registerTask (registerTask s name).1 name).2 ∧
      (registerTask (registerTask s name).1 name).2 ≠ (registerTask s name).2 ∧
      (taskArenaGet (registerTask (registerTask s name).1 name).1
          (registerTask (registerTask s name).1 name).2).Child
          = some (registerTask s name).2 ∧
      (taskArenaGet (registerTask (registerTask s name).1 name).1
          (registerTask s name).2).Name = name ∧
      (taskArenaGet (registerTask (registerTask s name).1 name).1
          (registerTask s name).2).Parent
          = some (registerTask (registerTask s name).1 name).2) ∧
    (∀ (s : EsshState) (name : String),
      List.lookup name (registerDriver (registerDriver s name).1 name).1.Drivers
          = some (registerDriver (registerDriver s name).1 name).2 ∧
      (registerDriver (registerDriver s name).1 name).2 ≠ (registerDriver s name).2 ∧
      (driverArenaGet (registerDriver (registerDriver s name).1 name).1
          (registerDriver (registerDriver s name).1 name).2).Child
          = some (registerDriver s name).2 ∧
      (driverArenaGet (registerDriver (registerDriver s name).1 name).1
          (registerDriver s name).2).Name = name ∧
      (driverArenaGet (registerDriver (registerDriver s name).1 name).1
          (registerDriver s name).2).Parent
          = some (registerDriver (registerDriver s name).1 name).2) ∧
    (∀ (s : EsshState) (name : String),
      List.lookup name (registerJob (registerJob s name).1 name).1.Jobs
          = some (registerJob (registerJob s name).1 name).2 ∧
      (registerJob (registerJob s name).1 name).2 ≠ (registerJob s name).2 ∧
      jobArenaGet (registerJob (registerJob s name).1 name).1
          (registerJob (registerJob s name).1 name).2 = { NewJob with Name := name }) := by
  refine ⟨fun s name => ?_, fun s name => ?_, fun s name => ?_, fun s name => ?_⟩
  · refine ⟨?_, ?_, ?_, ?_, ?_⟩
    · rw [registerHost_Hosts, registerHost_snd, lookup_mapSet_self]
    · rw [registerHost_snd, registerHost_snd, registerHost_arena_length]
      omega
    · rw [registerHost_snd, regHost_new_Child, registerHost_Hosts, lookup_mapSet_self,
        registerHost_snd]
    · rw [registerHost_snd s name,
        regHost_old_Name _ _ (by rw [registerHost_arena_length]; omega),
        regHost_new_Name]
    · rw [registerHost_snd s name,
        regHost_old_Parent _ _ (by rw [registerHost_Hosts, lookup_mapSet_self])
          (by rw [registerHost_arena_length]; omega),
        registerHost_snd]
  · refine ⟨?_, ?_, ?_, ?_, ?_⟩
    · rw [registerTask_Tasks, registerTask_snd, lookup_mapSet_self]
    · rw [registerTask_snd, registerTask_snd, registerTask_arena_length]
      omega
    · rw [registerTask_snd, regTask_new_Child, registerTask_Tasks, lookup_mapSet_self,
        registerTask_snd]
    · rw [registerTask_snd s name,
        regTask_old_Name _ _ (by rw [registerTask_arena_length]; omega),
        regTask_new_Name]
    · rw [registerTask_snd s name,
        regTask_old_Parent _ _ (by rw [registerTask_Tasks, lookup_mapSet_self])
          (by rw [registerTask_arena_length]; omega),
        registerTask_snd]
  · refine ⟨?_, ?_, ?_, ?_, ?_⟩
    · rw [registerDriver_Drivers, registerDriver_snd, lookup_mapSet_self]
    · rw [registerDriver_snd, registerDriver_snd, registerDriver_arena_length]
      omega
    · rw [registerDriver_snd, regDriver_new_Child, registerDriver_Drivers, lookup_mapSet_self,
        registerDriver_snd]
    · rw [registerDriver_snd s name,
        regDriver_old_Name _ _ (by rw [registerDriver_arena_length]; omega),
        regDriver_new_Name]
    · rw [registerDriver_snd s name,
        regDriver_old_Parent _ _ (by rw [registerDriver_Drivers, lookup_mapSet_self])
          (by rw [registerDriver_arena_length]; omega),
        registerDriver_snd]
  · refine ⟨?_, ?_, ?_⟩
    · rw [registerJob_Jobs, registerJob_snd, lookup_mapSet_self]
    · rw [registerJob_snd, registerJob_snd, registerJob_arena_length]
      omega
    · rw [registerJob_snd, registerJob_get_new]

/-! ## C10: anonymous task declarations -/

/-- `updateTask` never touches the identity fields of a task: the name and
the override-chain pointers survive any successful field assignment. -/
theorem updateTask_preserves {t : Task} {k : String} {v : LuaValue} {t' : Task}
    (h : updateTask t k v = .ok t') :
    t'.Name = t.Name ∧ t'.Child = t.Child ∧ t'.Parent = t.Parent := by
  unfold updateTask at h
  repeat' split at h
  all_goals try exact Except.noConfusion h
  all_goals try (injection h with h2; rw [← h2]; exact ⟨rfl, rfl, rfl⟩)
  all_goals simp only [] at h
  all_goals split at h
  all_goals try exact Except.noConfusion h
  all_goals (injection h with h2; rw [← h2]; exact ⟨rfl, rfl, rfl⟩)

/-- `setupTask` preserves a task's name and override-chain pointers. -/
theorem setupTask_preserves {entries : List (LuaValue × LuaValue)} {t t' : Task}
    (h : setupTask t entries = .ok t') :
    t'.Name = t.Name ∧ t'.Child = t.Child ∧ t'.Parent = t.Parent := by
  induction entries generalizing t with
  | nil =>
    simp [setupTask] at h
    rw [← h]
    exact ⟨rfl, rfl, rfl⟩
  | cons p rest ih =>
    obtain ⟨k, v⟩ := p
    unfold setupTask at h
    split at h
    · split at h
      · exact Except.noConfusion h
      · next t1 heq =>
        obtain ⟨h1, h2, h3⟩ := updateTask_preserves heq
        obtain ⟨h4, h5, h6⟩ := ih h
        exact ⟨h4.trans h1, h5.trans h2, h6.trans h3⟩
    · exact ih h

/-- Unpacking a successful anonymous `task(config)` call: the new task is
allocated at the end of the arena, registered in the global map under
`DefaultTaskName`, keeps that name and links its `Child` to whatever the
map previously held; older arena slots keep their names, and the shadowed
predecessor's `Parent` is redirected to the new instance. -/
theorem esshTask_table_shape {s : EsshState} {arr : List LuaValue}
    {hash : List (LuaValue × LuaValue)} {s' : EsshState} {tid : Nat}
    (h : esshTask s [.table arr hash] = .ok (s', tid)) :
    tid = s.taskArena.length ∧
    s'.Tasks = mapSet s.Tasks DefaultTaskName tid ∧
    s'.taskArena.length = s.taskArena.length + 1 ∧
    (taskArenaGet s' tid).Name = DefaultTaskName ∧
    (taskArenaGet s' tid).Child = List.lookup DefaultTaskName s.Tasks ∧
    (∀ i, i < s.taskArena.length →
      (taskArenaGet s' i).Name = (taskArenaGet s i).Name) ∧
    (∀ cid, List.lookup DefaultTaskName s.Tasks = some cid → cid < s.taskArena.length →
      (taskArenaGet s' cid).Parent = some tid) := by
  unfold esshTask at h
  simp only [List.head?, toLTable] at h
  split at h
  · exact Except.noConfusion h
  · next t1 heq =>
    injection h with h2
    injection h2 with hs htid
    subst hs
    subst htid
    have hsnd := registerTask_snd s DefaultTaskName
    have hlen := registerTask_arena_length s DefaultTaskName
    have hmaps := registerTask_Tasks s DefaultTaskName
    obtain ⟨hn, hc, hp⟩ := setupTask_preserves heq
    rw [hsnd] at hn hc hp
    refine ⟨hsnd, ?_, ?_, ?_, ?_, ?_, ?_⟩
    · simp [hmaps, hsnd]
    · simp [hlen, hsnd]
    · simp only [taskArenaGet]
      rw [getD_set_self_of_lt (by rw [hsnd, hlen]; omega)]
      rw [hn]
      exact regTask_new_Name s _
    · simp only [taskArenaGet]
      rw [getD_set_self_of_lt (by rw [hsnd, hlen]; omega)]
      rw [hc]
      exact regTask_new_Child s _
    · intro i hi
      simp only [taskArenaGet]
      rw [getD_set_of_ne (by rw [hsnd]; omega)]
      simpa only [taskArenaGet] using regTask_old_Name s DefaultTaskName hi
    · intro cid hcl hlt
      simp only [taskArenaGet]
      rw [getD_set_of_ne (by rw [hsnd]; omega)]
      rw [hsnd]
      simpa only [taskArenaGet] using regTask_old_Parent s DefaultTaskName hcl hlt

/-- C10: every anonymous `task(config)` declaration registers the task under
the one fixed default name, and a second anonymous task shadows the first:
the registry maps `DefaultTaskName` to the latest anonymous task only, whose
override-predecessor (`Child`) is the earlier one; the earlier instance
still carries the default name and its `Parent` points at the latest. -/
theorem anonymous_task_default_name :
    (∀ (s : EsshState) (arr : List LuaValue) (hash : List (LuaValue × LuaValue))
        (s' : EsshState) (tid : Nat),
      esshTask s [.table arr hash] = .ok (s', tid) →
      List.lookup DefaultTaskName s'.Tasks = some tid) ∧
    (∀ (s : EsshState) (a1 : List LuaValue) (h1 : List (LuaValue × LuaValue))
        (a2 : List LuaValue) (h2 : List (LuaValue × LuaValue))
        (s1 : EsshState) (tid1 : Nat) (s2 : EsshState) (tid2 : Nat),
      esshTask s [.table a1 h1] = .ok (s1, tid1) →
      esshTask s1 [.table a2 h2] = .ok (s2, tid2) →
      tid2 ≠ tid1 ∧
      List.lookup DefaultTaskName s2.Tasks = some tid2 ∧
      (taskArenaGet s2 tid2).Child = some tid1 ∧
      (taskArenaGet s2 tid1).Name = DefaultTaskName ∧
      (taskArenaGet s2 tid1).Parent = some tid2) := by
  constructor
  · intro s arr hash s' tid h
    obtain ⟨htid, htasks, -⟩ := esshTask_table_shape h
    rw [htasks]
    exact lookup_mapSet_self _ _ _
  · intro s a1 hh1 a2 hh2 s1 tid1 s2 tid2 h1 h2
    obtain ⟨htid1, htasks1, hlen1, hname1, -, -, -⟩ := esshTask_table_shape h1
    obtain ⟨htid2, htasks2, hlen2, -, hchild2, holdname2, holdparent2⟩ := esshTask_table_shape h2
    refine ⟨by omega, ?_, ?_, ?_, ?_⟩
    · rw [htasks2]
      exact lookup_mapSet_self _ _ _
    · rw [hchild2, htasks1, lookup_mapSet_self, htid1]
    · rw [holdname2 tid1 (by omega), hname1]
    · exact holdparent2 tid1 (by rw [htasks1]; exact lookup_mapSet_self _ _ _) (by omega)

/-- The interpreter state after one anonymous `task {}` declaration from the
empty state. -/
def anonTaskState1 : EsshState :=
  { taskArena := [{ Name := DefaultTaskName, Registry := some .localScope }],
    Tasks := [(DefaultTaskName, 0)] }

/-- The interpreter state after a second anonymous `task {}` declaration. -/
def anonTaskState2 : EsshState :=
  { taskArena := [{ Name := DefaultTaskName, Registry := some .localScope, Parent := some 1 },
                  { Name := DefaultTaskName, Registry := some .localScope, Child := some 0 }],
    Tasks := [(DefaultTaskName, 1)] }

/-- Witness for C10 at a concrete input: two anonymous `task {}` calls from
the empty state. -/
theorem anonymous_task_default_name_witness :
    (1 : Nat) ≠ 0 ∧
    List.lookup DefaultTaskName anonTaskState2.Tasks = some 1 ∧
    (taskArenaGet anonTaskState2 1).Child = some 0 ∧
    (taskArenaGet anonTaskState2 0).Name = DefaultTaskName ∧
    (taskArenaGet anonTaskState2 0).Parent = some 1 :=
  anonymous_task_default_name.2 {} [] [] [] [] anonTaskState1 0 anonTaskState2 1 rfl rfl

/-! ## C7: script XOR script-file -/

/-- The script normalizer never yields an empty segment list: a successful
`toScript` always produces at least one segment (a string gives one segment,
a record one merged segment, and an array — necessarily non-empty to be an
array — concatenates its elements' non-empty results). -/
theorem toScript_ok_ne_nil_all :
    ∀ v : LuaValue, ∀ segs : List Segment, toScript v = .ok segs → segs ≠ [] := by
  refine toScript.induct
    (fun v => ∀ segs, toScript v = .ok segs → segs ≠ [])
    (fun elems => elems ≠ [] → ∀ segs, scriptArray elems = .ok segs → segs ≠ [])
    ?_ ?_ ?_ ?_ ?_ ?_ ?_ ?_ ?_ ?_ ?_ ?_ ?_
  · intro arr hash h1 h2 segs h
    unfold toScript at h
    simp [h1, h2] at h
  · intro arr hash h1 h2 e hrec segs h
    unfold toScript at h
    simp [h1, h2, hrec] at h
  · intro arr hash h1 h2 m hrec segs h
    unfold toScript at h
    simp [h1, h2, hrec] at h
    simp [← h]
  · intro arr hash h1 ih segs h
    unfold toScript at h
    simp only [h1, if_false] at h
    exact ih (by simpa using h1) segs h
  · intro s segs h
    unfold toScript at h
    injection h with h2
    simp [← h2]
  · intro t ht hs segs h
    unfold toScript at h
    split at h
    · exact (ht _ _ rfl).elim
    · exact (hs _ rfl).elim
    · exact Except.noConfusion h
  · intro hne
    exact absurd rfl hne
  · intro rets rest e herr ih hne segs h
    unfold scriptArray at h
    simp [herr] at h
  · intro rets rest more hok e herr ih1 ih2 hne segs h
    unfold scriptArray at h
    simp [hok, herr] at h
  · intro rets rest more hok more2 hok2 ih1 ih2 hne segs h
    unfold scriptArray at h
    simp only [hok, hok2] at h
    injection h with h2
    intro hx
    rw [hx] at h2
    rcases List.append_eq_nil.mp h2 with ⟨ha, hb⟩
    exact ih1 more hok ha
  · intro e rest hf e1 herr ih hne segs h
    unfold scriptArray at h
    split at h
    · next x heq => exact absurd heq (by simp)
    · next x rets2 rest2 heq =>
      injection heq with he hr
      exact (hf rets2 he).elim
    · next x e2 rest2 hf2 heq =>
      injection heq with he hr
      subst he
      subst hr
      simp [herr] at h
  · intro e rest hf more hok e1 herr ih1 ih2 hne segs h
    unfold scriptArray at h
    split at h
    · next x heq => exact absurd heq (by simp)
    · next x rets2 rest2 heq =>
      injection heq with he hr
      exact (hf rets2 he).elim
    · next x e2 rest2 hf2 heq =>
      injection heq with he hr
      subst he
      subst hr
      simp [hok, herr] at h
  · intro e rest hf more hok more2 hok2 ih1 ih2 hne segs h
    unfold scriptArray at h
    split at h
    · next x heq => exact absurd heq (by simp)
    · next x rets2 rest2 heq =>
      injection heq with he hr
      exact (hf rets2 he).elim
    · next x e2 rest2 hf2 heq =>
      injection heq with he hr
      subst he
      subst hr
      simp only [hok, hok2] at h
      injection h with h2
      intro hx
      rw [hx] at h2
      rcases List.append_eq_nil.mp h2 with ⟨ha, hb⟩
      exact ih1 more hok ha

/-- Unpacking a successful `script` assignment: the normalized segments are
stored and the `script_file` field is untouched. -/
theorem updateTask_script_ok {t : Task} {v : LuaValue} {t' : Task}
    (h : updateTask t "script" v = .ok t') :
    ∃ segs, toScript v = .ok segs ∧ t'.Script = segs ∧ t'.File = t.File := by
  cases hts : toScript v with
  | error e => simp [updateTask, hts] at h
  | ok segs =>
    by_cases hcond : t.File ≠ "" ∧ segs.length > 0
    · simp [updateTask, hts, hcond] at h
    · simp [updateTask, hts, hcond] at h
      exact ⟨segs, rfl, by simp [← h], by simp [← h]⟩

/-- Unpacking a successful `script_file` assignment: the path is stored and
the script segments are untouched. -/
theorem updateTask_script_file_ok {t : Task} {f : String} {t' : Task}
    (h : updateTask t "script_file" (.str f) = .ok t') :
    t'.File = f ∧ t'.Script = t.Script := by
  by_cases hcond : f ≠ "" ∧ t.Script.length > 0
  · simp [updateTask, toStr, hcond] at h
  · simp [updateTask, toStr, hcond] at h
    exact ⟨by simp [← h], by simp [← h]⟩

/-- C7: assigning both `script` and `script_file` (each non-empty) to one
task fails with the mutual-exclusion error, in either order.  Order one:
after a successful `script` assignment to a task with no script-file, any
non-empty `script_file` assignment fails.  Order two: after a successful
non-empty `script_file` assignment to a task with no script, any `script`
assignment whose value normalizes fails. -/
theorem task_script_xor_script_file :
    (∀ (t : Task) (v : LuaValue) (t' : Task) (f : String),
      t.File = "" →
      updateTask t "script" v = .ok t' →
      f ≠ "" →
      updateTask t' "script_file" (.str f) =
        .error "invalid task definition: can't use 'script_file' and 'script' at the same time.") ∧
    (∀ (t : Task) (f : String) (t' : Task) (v : LuaValue) (segs : List Segment),
      t.Script = [] →
      updateTask t "script_file" (.str f) = .ok t' →
      f ≠ "" →
      toScript v = .ok segs →
      updateTask t' "script" v =
        .error "invalid task definition: can't use 'script_file' and 'script' at the same time.") := by
  constructor
  · intro t v t' f hFile hupd hf
    obtain ⟨segs, hts, hScript, hFile'⟩ := updateTask_script_ok hupd
    have hne : segs ≠ [] := toScript_ok_ne_nil_all v segs hts
    have hlen : t'.Script.length > 0 := by
      rw [hScript]
      exact List.length_pos.mpr hne
    simp [updateTask, toStr, hf, hlen]
  · intro t f t' v segs hScript hupd hf hts
    obtain ⟨hFile', hScript'⟩ := updateTask_script_file_ok hupd
    have hne : segs ≠ [] := toScript_ok_ne_nil_all v segs hts
    have hfile : t'.File ≠ "" := by rw [hFile']; exact hf
    simp [updateTask, hts, hfile, List.length_pos.mpr hne]

/-- The task produced by assigning `script = "x"` to a fresh task. -/
def taskWithScript : Task :=
  { LValues := [("script", .str "x")], Script := [[("code", "x")]] }

/-- Witness for C7 at a concrete input: `script = "x"` then
`script_file = "f"`. -/
theorem task_script_xor_script_file_witness :
    updateTask taskWithScript "script_file" (.str "f") =
      .error "invalid task definition: can't use 'script_file' and 'script' at the same time." :=
  task_script_xor_script_file.1 {} (.str "x") taskWithScript "f" rfl rfl (by decide)

/-! ## C4: the script normalizer -/

/-- The coercion of one record entry's value as the spec states it: a string
stays itself, a boolean becomes "true"/"false", any other type has no
coercion (and is fatal). -/
def coerceScriptValue : LuaValue → Option String
  | .str s => some s
  | .bool b => some (if b then "true" else "false")
  | _ => none

/-- Coercing every entry of a string-keyed record, in order; `none` when some
value is of an uncoercible type. -/
def entriesCoerce : List (String × LuaValue) → Option (List (String × String))
  | [] => some []
  | (k, v) :: rest =>
    match coerceScriptValue v with
    | none => none
    | some s =>
      match entriesCoerce rest with
      | none => none
      | some cs => some ((k, s) :: cs)

/-- Assigning a key not present in a Go map appends a fresh binding. -/
theorem mapSet_append_of_fresh {α : Type} {acc : List (String × α)} {k : String} {v : α}
    (h : ∀ p ∈ acc, p.1 ≠ k) : mapSet acc k v = acc ++ [(k, v)] := by
  induction acc with
  | nil => rfl
  | cons p rest ih =>
    obtain ⟨k', v'⟩ := p
    have hk : k' ≠ k := h (k', v') (by simp)
    simp only [mapSet, beq_eq_false_iff_ne.mpr hk, List.cons_append]
    rw [if_neg (by simp)]
    rw [ih fun q hq => h q (by simp [hq])]

/-- The record loop of the normalizer, on a string-keyed table whose values
all coerce, merges exactly the coerced entries (in table order) into the
accumulated segment. -/
theorem scriptRecord_coerce (entries : List (String × LuaValue)) :
    ∀ (acc : List (String × String)) (coerced : List (String × String)),
    (entries.map Prod.fst).Nodup →
    (∀ p ∈ acc, p.1 ∉ entries.map Prod.fst) →
    entriesCoerce entries = some coerced →
    scriptRecord (entries.map fun p => (.str p.1, p.2)) acc = .ok (acc ++ coerced) := by
  induction entries with
  | nil =>
    intro acc coerced _ _ hco
    simp [entriesCoerce] at hco
    simp [scriptRecord, ← hco]
  | cons p rest ih =>
    intro acc coerced hnd hdisj hco
    obtain ⟨k, v⟩ := p
    simp only [entriesCoerce] at hco
    cases hcv : coerceScriptValue v with
    | none => rw [hcv] at hco; exact Option.noConfusion hco
    | some s =>
      rw [hcv] at hco
      cases hcr : entriesCoerce rest with
      | none => rw [hcr] at hco; exact Option.noConfusion hco
      | some cs =>
        rw [hcr] at hco
        injection hco with hco
        have hfresh : ∀ q ∈ acc, q.1 ≠ k := by
          intro q hq
          have := hdisj q hq
          simp at this
          exact fun hx => this.1 hx
        have hstep : mapSet acc k s = acc ++ [(k, s)] := mapSet_append_of_fresh hfresh
        have hnd' : (rest.map Prod.fst).Nodup := by
          simp at hnd
          exact hnd.2
        have hkrest : k ∉ rest.map Prod.fst := by
          simp at hnd
          simp [hnd.1]
        have hdisj' : ∀ q ∈ acc ++ [(k, s)], q.1 ∉ rest.map Prod.fst := by
          intro q hq
          rcases List.mem_append.mp hq with hq | hq
          · have := hdisj q hq
            simp at this ⊢
            exact this.2
          · simp at hq
            subst hq
            simpa using hkrest
        have hrec := ih (acc ++ [(k, s)]) cs hnd' hdisj' hcr
        cases v with
        | str s0 =>
          injection hcv with hcv2
          subst hcv2
          simp only [List.map_cons, scriptRecord, toStr]
          rw [hstep, hrec, ← hco]
          simp
        | bool b =>
          injection hcv with hcv2
          subst hcv2
          simp only [List.map_cons, scriptRecord, toStr, toBool]
          rw [hstep, hrec, ← hco]
          simp
        | nil => exact Option.noConfusion hcv
        | num n => exact Option.noConfusion hcv
        | func r => exact Option.noConfusion hcv
        | table a h => exact Option.noConfusion hcv
        | userdata kk ii => exact Option.noConfusion hcv

/-- In a string-keyed record whose values all coerce, the `"code"` probe
finds a non-nil value exactly when some entry is keyed `"code"`. -/
theorem rawGetString_code_of_coercible (entries : List (String × LuaValue)) :
    ∀ (coerced : List (String × String)),
    "code" ∈ entries.map Prod.fst →
    entriesCoerce entries = some coerced →
    isNil (rawGetString (entries.map fun p => (.str p.1, p.2)) "code") = false := by
  induction entries with
  | nil => intro coerced hmem; simp at hmem
  | cons p rest ih =>
    intro coerced hmem hco
    obtain ⟨k, v⟩ := p
    simp only [entriesCoerce] at hco
    cases hcv : coerceScriptValue v with
    | none => rw [hcv] at hco; exact Option.noConfusion hco
    | some s =>
      rw [hcv] at hco
      cases hcr : entriesCoerce rest with
      | none => rw [hcr] at hco; exact Option.noConfusion hco
      | some cs =>
        by_cases hk : k = "code"
        · subst hk
          simp only [List.map_cons, rawGetString, rawGetHash, luaKeyEq]
          rw [if_pos (by simp)]
          cases v with
          | str s0 => rfl
          | bool b => rfl
          | nil => exact Option.noConfusion hcv
          | num n => exact Option.noConfusion hcv
          | func r => exact Option.noConfusion hcv
          | table a h => exact Option.noConfusion hcv
          | userdata kk ii => exact Option.noConfusion hcv
        · have hmem' : "code" ∈ rest.map Prod.fst := by
            simp at hmem
            rcases hmem with hmem | hmem
            · exact absurd hmem.symm hk
            · simpa using hmem
          simp only [List.map_cons, rawGetString, rawGetHash, luaKeyEq]
          rw [if_neg (by simpa using hk)]
          exact ih cs hmem' hcr

/-- C4: the script normalizer's full casework.  A string becomes the single
segment `[{code: value}]`; a record (table with no integer indices) lacking
`"code"` is fatal, and one containing it has every entry coerced to a string
(booleans to "true"/"false") and merged into one segment; an uncoercible
record value, or a non-string record key, is fatal with the corresponding
message; an array (table with integer indices) is processed in index order
with its hash entries ignored, a callable element being invoked with no
arguments and the normalized segments of its return value spliced in place,
a non-callable element being normalized and appended; any other value is
fatal.  The final conjuncts evaluate the spec's concrete examples, including
a callable whose returned array is spliced flat in place. -/
theorem toScript_normalizer_cases :
    (∀ s : String, toScript (.str s) = .ok [[("code", s)]]) ∧
    (∀ hash, isNil (rawGetString hash "code") = true →
      toScript (.table [] hash) =
        .error "if a 'script' entry is table, it has to have 'code' property.") ∧
    (∀ (entries : List (String × LuaValue)) (coerced : List (String × String)),
      (entries.map Prod.fst).Nodup →
      "code" ∈ entries.map Prod.fst →
      entriesCoerce entries = some coerced →
      toScript (.table [] (entries.map fun p => (.str p.1, p.2))) = .ok [coerced]) ∧
    (∀ (k : LuaValue) (v : LuaValue) (rest : List (LuaValue × LuaValue)) (m : Segment),
      coerceScriptValue v = none →
      scriptRecord ((k, v) :: rest) m =
        .error "if a 'script' entry is table, it's value has to be string or bool.") ∧
    (∀ (k : LuaValue) (v : LuaValue) (rest : List (LuaValue × LuaValue)) (m : Segment)
        (s : String),
      toStr k = none → coerceScriptValue v = some s →
      scriptRecord ((k, v) :: rest) m =
        .error "if a 'script' entry is table, it's property has to be string.") ∧
    (∀ (arr : List LuaValue) (hash : List (LuaValue × LuaValue)), arr ≠ [] →
      toScript (.table arr hash) = scriptArray arr) ∧
    (∀ (rets : Nat → LuaValue) (rest : List LuaValue),
      scriptArray (.func rets :: rest) =
        (toScript (rets 0)).bind fun segs => (scriptArray rest).map fun more => segs ++ more) ∧
    (∀ (e : LuaValue) (rest : List LuaValue), isLFunction e = false →
      scriptArray (e :: rest) =
        (toScript e).bind fun segs => (scriptArray rest).map fun more => segs ++ more) ∧
    ((∀ b, toScript (.bool b) = .error "'script' got a invalid value.") ∧
      (∀ n, toScript (.num n) = .error "'script' got a invalid value.") ∧
      (∀ r, toScript (.func r) = .error "'script' got a invalid value.") ∧
      (∀ k i, toScript (.userdata k i) = .error "'script' got a invalid value.") ∧
      toScript .nil = .error "'script' got a invalid value.") ∧
    (toScript (.str "echo hi") = .ok [[("code", "echo hi")]] ∧
      toScript (.table [.str "a",
          .table [] [(.str "code", .str "b"), (.str "sudo", .bool true)]] []) =
        .ok [[("code", "a")], [("code", "b"), ("sudo", "true")]] ∧
      toScript (.table [.str "a", .func (fun _ => .table [.str "s1", .str "s2"] []),
          .str "c"] []) =
        .ok [[("code", "a")], [("code", "s1")], [("code", "s2")], [("code", "c")]]) := by
  refine ⟨fun s => rfl, ?_, ?_, ?_, ?_, ?_, ?_, ?_,
    ⟨fun b => rfl, fun n => rfl, fun r => rfl, fun k i => rfl, rfl⟩, ⟨rfl, rfl, rfl⟩⟩
  · intro hash h
    simp [toScript, h]
  · intro entries coerced hnd hmem hco
    have hnil := rawGetString_code_of_coercible entries coerced hmem hco
    have hrec := scriptRecord_coerce entries [] coerced hnd (by simp) hco
    simp [toScript, hnil, forEachEntries, hrec]
  · intro k v rest m h
    cases v with
    | str s0 => exact Option.noConfusion h
    | bool b => exact Option.noConfusion h
    | nil => simp [scriptRecord, toStr, toBool]
    | num n => simp [scriptRecord, toStr, toBool]
    | func r => simp [scriptRecord, toStr, toBool]
    | table a hh => simp [scriptRecord, toStr, toBool]
    | userdata kk ii => simp [scriptRecord, toStr, toBool]
  · intro k v rest m s hk h
    cases v with
    | str s0 =>
      simp [scriptRecord, hk, show toStr (LuaValue.str s0) = some s0 from rfl]
    | bool b =>
      simp [scriptRecord, hk, show toStr (LuaValue.bool b) = none from rfl,
        show toBool (LuaValue.bool b) = some b from rfl]
    | nil => exact Option.noConfusion h
    | num n => exact Option.noConfusion h
    | func r => exact Option.noConfusion h
    | table a hh => exact Option.noConfusion h
    | userdata kk ii => exact Option.noConfusion h
  · intro arr hash h
    have hlen : (arr.length == 0) = false := by
      simp [List.length_eq_zero]
      exact h
    simp [toScript, hlen]
  · intro rets rest
    cases hts : toScript (rets 0) with
    | error e => simp [scriptArray, hts, Except.bind]
    | ok segs =>
      cases hsa : scriptArray rest with
      | error e => simp [scriptArray, hts, hsa, Except.bind, Except.map]
      | ok more => simp [scriptArray, hts, hsa, Except.bind, Except.map]
  · intro e rest hf
    cases e with
    | func r => simp [isLFunction] at hf
    | nil =>
      cases hsa : scriptArray rest <;>
        simp [scriptArray, toScript, hsa, Except.bind, Except.map]
    | bool b =>
      cases hsa : scriptArray rest <;>
        simp [scriptArray, toScript, hsa, Except.bind, Except.map]
    | num n =>
      cases hsa : scriptArray rest <;>
        simp [scriptArray, toScript, hsa, Except.bind, Except.map]
    | userdata kk ii =>
      cases hsa : scriptArray rest <;>
        simp [scriptArray, toScript, hsa, Except.bind, Except.map]
    | str s0 =>
      cases hsa : scriptArray rest <;>
        simp [scriptArray, toScript, hsa, Except.bind, Except.map]
    | table a hh =>
      cases hts : toScript (.table a hh) with
      | error e => simp [scriptArray, hts, Except.bind]
      | ok segs =>
        cases hsa : scriptArray rest <;>
          simp [scriptArray, hts, hsa, Except.bind, Except.map]

/-- Witness for C4 at a concrete input: the record `{code = "b", sudo = true}`
merges into one segment with the boolean coerced. -/
theorem toScript_normalizer_cases_witness :
    toScript (.table [] [(.str "code", .str "b"), (.str "sudo", .bool true)]) =
      .ok [[("code", "b"), ("sudo", "true")]] :=
  toScript_normalizer_cases.2.2.1 [("code", .str "b"), ("sudo", .bool true)]
    [("code", "b"), ("sudo", "true")] (by decide) (by decide) rfl

/-! ## C8: driver engine resolution -/

/-- C8: a driver whose `engine` is a fixed string resolves to exactly that
string on every resolution; a driver whose `engine` is a callback re-invokes
the callback at every resolution (conjunct two: resolution `n` is determined
by the callback's `n`-th invocation, so nothing is cached — conjunct four
exhibits a callback whose successive invocations yield different strings and
whose successive resolutions return exactly those); a callback return value
that is not a string is the schema error. -/
theorem driver_engine_resolution :
    (∀ (d : Driver) (d' : Driver) (s : String) (er : EngineResolver) (n : Nat),
      updateDriver d "engine" (.str s) = .ok d' →
      d'.Engine = some er →
      resolveEngine er n = .ok s) ∧
    (∀ (d : Driver) (d' : Driver) (rets : Nat → LuaValue) (er : EngineResolver) (n : Nat),
      updateDriver d "engine" (.func rets) = .ok d' →
      d'.Engine = some er →
      resolveEngine er n =
        (match toStr (rets n) with
         | some retStr => Except.ok retStr
         | none => Except.error "driver engine has to return a string.")) ∧
    (∀ (rets : Nat → LuaValue) (n : Nat), toStr (rets n) = none →
      resolveEngine (.fromFunc rets) n = .error "driver engine has to return a string.") ∧
    (∀ (s1 s2 : String) (d d' : Driver),
      updateDriver d "engine"
          (.func fun n => if n = 0 then .str s1 else .str s2) = .ok d' →
      ∀ er, d'.Engine = some er →
      resolveEngine er 0 = .ok s1 ∧ resolveEngine er 1 = .ok s2) := by
  have hstr : ∀ (d : Driver) (d' : Driver) (s : String),
      updateDriver d "engine" (.str s) = .ok d' →
      d'.Engine = some (.fromString s) := by
    intro d d' s hupd
    simp [updateDriver, toStr] at hupd
    rw [← hupd]
  have hfn : ∀ (d : Driver) (d' : Driver) (rets : Nat → LuaValue),
      updateDriver d "engine" (.func rets) = .ok d' →
      d'.Engine = some (.fromFunc rets) := by
    intro d d' rets hupd
    simp [updateDriver] at hupd
    rw [← hupd]
  refine ⟨?_, ?_, ?_, ?_⟩
  · intro d d' s er n hupd heng
    rw [hstr d d' s hupd] at heng
    injection heng with heng
    rw [← heng]
    rfl
  · intro d d' rets er n hupd heng
    rw [hfn d d' rets hupd] at heng
    injection heng with heng
    rw [← heng]
    rfl
  · intro rets n h
    simp [resolveEngine, h]
  · intro s1 s2 d d' hupd er heng
    rw [hfn d d' _ hupd] at heng
    injection heng with heng
    rw [← heng]
    exact ⟨rfl, rfl⟩

/-- The driver produced by assigning a callback engine that returns "a" on
its first invocation and "b" afterwards. -/
def driverWithCallback : Driver :=
  { LValues := [("engine", .func fun n => if n = 0 then .str "a" else .str "b")],
    Engine := some (.fromFunc fun n => if n = 0 then .str "a" else .str "b") }

/-- Witness for C8 at a concrete input: a callback returning "a" then "b"
resolves to "a" then "b" — the first result is not cached. -/
theorem driver_engine_resolution_witness :
    resolveEngine (.fromFunc fun n => if n = 0 then .str "a" else .str "b") 0 = .ok "a" ∧
    resolveEngine (.fromFunc fun n => if n = 0 then .str "a" else .str "b") 1 = .ok "b" :=
  driver_engine_resolution.2.2.2 "a" "b" {} driverWithCallback rfl
    (.fromFunc fun n => if n = 0 then .str "a" else .str "b") rfl

/-! ## C9: non-string elements of string lists are silently skipped -/

/-- C9: at every site that accepts a string-or-string-list (`select_hosts`
selections, a query's `.filter` argument, and task `targets`, `filters` and
`args`), a list element that is not a string is silently skipped: the call
succeeds and the resulting list is exactly the string elements of the input
in their original order (`filterMap toStr`). -/
theorem string_list_sites_skip_nonstrings :
    (∀ (s : EsshState) (arr : List LuaValue) (hash : List (LuaValue × LuaValue))
        (elems : List LuaValue),
      toSlice (.table arr hash) = some elems →
      esshSelectHosts s [.table arr hash] =
        .ok { NewHostQuery with selections := elems.filterMap toStr }) ∧
    (∀ (q : HostQuery) (arr : List LuaValue) (hash : List (LuaValue × LuaValue))
        (elems : List LuaValue),
      toSlice (.table arr hash) = some elems →
      hostQueryFilter q (.table arr hash) =
        .ok { q with filters := q.filters ++ elems.filterMap toStr }) ∧
    (∀ (t : Task) (arr : List LuaValue) (hash : List (LuaValue × LuaValue))
        (elems : List LuaValue),
      toSlice (.table arr hash) = some elems →
      updateTask t "targets" (.table arr hash) =
        .ok { t with LValues := mapSet t.LValues "targets" (.table arr hash),
                     Targets := elems.filterMap toStr }) ∧
    (∀ (t : Task) (arr : List LuaValue) (hash : List (LuaValue × LuaValue))
        (elems : List LuaValue),
      toSlice (.table arr hash) = some elems →
      updateTask t "filters" (.table arr hash) =
        .ok { t with LValues := mapSet t.LValues "filters" (.table arr hash),
                     Filters := elems.filterMap toStr }) ∧
    (∀ (t : Task) (arr : List LuaValue) (hash : List (LuaValue × LuaValue))
        (elems : List LuaValue),
      toSlice (.table arr hash) = some elems →
      updateTask t "args" (.table arr hash) =
        .ok { t with LValues := mapSet t.LValues "args" (.table arr hash),
                     Args := elems.filterMap toStr }) := by
  refine ⟨?_, ?_, ?_, ?_, ?_⟩
  · intro s arr hash elems h
    simp [esshSelectHosts, toStr, h, AppendSelections, NewHostQuery]
  · intro q arr hash elems h
    simp [hostQueryFilter, toStr, h, AppendFilters]
  · intro t arr hash elems h
    simp [updateTask, toStr, h]
  · intro t arr hash elems h
    simp [updateTask, toStr, h]
  · intro t arr hash elems h
    simp [updateTask, h]

/-- Witness for C9 at a concrete input: `targets = {"a", 1, true, "b"}`
yields exactly `["a", "b"]` with no error. -/
theorem string_list_sites_skip_nonstrings_witness :
    updateTask {} "targets" (.table [.str "a", .num 1, .bool true, .str "b"] []) =
      .ok { LValues := [("targets", .table [.str "a", .num 1, .bool true, .str "b"] [])],
            Targets := ["a", "b"] } :=
  string_list_sites_skip_nonstrings.2.2.1 {}
    [.str "a", .num 1, .bool true, .str "b"] []
    [.str "a", .num 1, .bool true, .str "b"] rfl

/-! ## C5 and C6: the module importer -/

/-- `Package.Load` performs at most one fetch: none when the cache directory
already exists and no update is forced, exactly one otherwise. -/
theorem PackageLoad_events {cfg : ImportConfig} {s : ImportState} {name : String}
    {u : Bool} {s1 : ImportState} {evs : List ImportEvent}
    (h : PackageLoad cfg s name u = .ok (s1, evs)) :
    evs = [] ∨ evs = [.fetch name] := by
  unfold PackageLoad at h
  simp only [] at h
  split at h
  · injection h with h2
    injection h2 with _ h3
    exact Or.inl h3.symm
  · split at h
    · injection h with h2
      injection h2 with _ h3
      exact Or.inr h3.symm
    · exact Except.noConfusion h

/-- After any successful import, the marker is clear and the imported value
is memoized under its name. -/
theorem esshImport_ok_cached {cfg : ImportConfig} {s : ImportState} {name : String}
    {s1 : ImportState} {v : LuaValue} {evs : List ImportEvent}
    (h : esshImport cfg s name = .ok (s1, v, evs)) :
    s1.moduleVar = none ∧ List.lookup name s1.LoadedModules = some v := by
  unfold esshImport at h
  split at h
  · exact Except.noConfusion h
  · next hmv =>
    split at h
    · next v0 hl =>
      injection h with h2
      injection h2 with hs h3
      injection h3 with hv
      subst hs
      subst hv
      exact ⟨hmv, hl⟩
    · split at h
      · exact Except.noConfusion h
      · split at h
        · exact Except.noConfusion h
        · injection h with h2
          injection h2 with hs h3
          injection h3 with hv
          subst hs
          subst hv
          constructor
          · rfl
          · simp [List.lookup]

/-- C5: a first import of a name performs exactly one entrypoint evaluation
(preceded by at most one fetch — none when the cache directory already
exists); after any successful import, importing the same name again is a
pure cache hit: the identical memoized value, an unchanged state, and an
empty I/O trace. -/
theorem import_memoized_once :
    (∀ (cfg : ImportConfig) (s : ImportState) (name : String)
        (s1 : ImportState) (v : LuaValue) (evs : List ImportEvent),
      List.lookup name s.LoadedModules = none →
      esshImport cfg s name = .ok (s1, v, evs) →
      (evs = [.evalFile name] ∨ evs = [.fetch name, .evalFile name])) ∧
    (∀ (cfg : ImportConfig) (s : ImportState) (name : String)
        (s1 : ImportState) (v : LuaValue) (evs : List ImportEvent),
      esshImport cfg s name = .ok (s1, v, evs) →
      esshImport cfg s1 name = .ok (s1, v, [])) := by
  constructor
  · intro cfg s name s1 v evs hl h
    unfold esshImport at h
    split at h
    · exact Except.noConfusion h
    · split at h
      · next v0 heq => rw [hl] at heq; exact Option.noConfusion heq
      · split at h
        · exact Except.noConfusion h
        · next s2 evs2 hload =>
          split at h
          · exact Except.noConfusion h
          · injection h with h2
            injection h2 with hs h3
            injection h3 with hv hevs
            rcases PackageLoad_events hload with he | he <;> rw [he] at hevs <;>
              simp at hevs
            · exact Or.inl hevs.symm
            · exact Or.inr hevs.symm
  · intro cfg s name s1 v evs h
    obtain ⟨hmv, hl⟩ := esshImport_ok_cached h
    unfold esshImport
    rw [hmv, hl]

/-- C6: the nested-import guard.  (1) Any import attempted while the
`essh.module` marker is set fails with the nested-import error; (2) the
state in which an entrypoint is evaluated carries the marker for that
import; (3) hence an import attempted from inside any entrypoint evaluation
fails with that error; (4) on the first-import path the captured module
value is precisely the evaluator applied to the marker-set state — the
marker is set before the evaluation — and the resulting state has the
marker cleared, as (5) it does after every successful import. -/
theorem nested_import_guard :
    (∀ (cfg : ImportConfig) (s : ImportState) (name : String) (mv : ModuleVar),
      s.moduleVar = some mv →
      esshImport cfg s name =
        .error "'essh.module' is existed. does not support nested module importing.") ∧
    (∀ (s : ImportState) (name : String),
      (evalStateOf s name).moduleVar = some { path := Key name, import_path := name }) ∧
    (∀ (cfg : ImportConfig) (s1 : ImportState) (name name2 : String),
      esshImport cfg (evalStateOf s1 name) name2 =
        .error "'essh.module' is existed. does not support nested module importing.") ∧
    (∀ (cfg : ImportConfig) (s : ImportState) (name : String) (s1 : ImportState)
        (evs : List ImportEvent),
      s.moduleVar = none →
      List.lookup name s.LoadedModules = none →
      PackageLoad cfg s name (importUpdateFlag cfg s) = .ok (s1, evs) →
      cfg.indexFileExists (Key name) = true →
      esshImport cfg s name =
        .ok ({ evalStateOf s1 name with
                moduleVar := none,
                LoadedModules := (name, cfg.evalIndex (evalStateOf s1 name) name)
                  :: s1.LoadedModules },
             cfg.evalIndex (evalStateOf s1 name) name, evs ++ [.evalFile name])) ∧
    (∀ (cfg : ImportConfig) (s : ImportState) (name : String) (s1 : ImportState)
        (v : LuaValue) (evs : List ImportEvent),
      esshImport cfg s name = .ok (s1, v, evs) → s1.moduleVar = none) := by
  refine ⟨?_, ?_, ?_, ?_, ?_⟩
  · intro cfg s name mv h
    unfold esshImport
    rw [h]
  · intro s name
    rfl
  · intro cfg s1 name name2
    unfold esshImport
    rfl
  · intro cfg s name s1 evs hmv hl hload hidx
    unfold esshImport
    rw [hmv, hl, hload, hidx]
    rfl
  · intro cfg s name s1 v evs h
    exact (esshImport_ok_cached h).1

/-- A concrete import configuration whose entrypoints evaluate to the fixed
module value `"m"`. -/
def importCfg : ImportConfig := { evalIndex := fun _ _ => .str "m" }

/-- The import state after the module "x" has been imported once under
`importCfg`. -/
def importedState : ImportState := { LoadedModules := [("x", .str "m")], cacheDirs := ["x"] }

/-- Witness for C5 at a concrete input: importing "x" a second time after a
first import (which fetched and evaluated) is a no-I/O cache hit. -/
theorem import_memoized_once_witness :
    esshImport importCfg importedState "x" = .ok (importedState, .str "m", []) :=
  import_memoized_once.2 importCfg {} "x" importedState (.str "m")
    [.fetch "x", .evalFile "x"] rfl

/-- An import state captured inside an entrypoint evaluation: the
`essh.module` marker is set. -/
def midEvalState : ImportState := { moduleVar := some { path := "x", import_path := "x" } }

/-- Witness for C6 at a concrete input: importing "y" while the marker of
"x" is set fails with the nested-import error. -/
theorem nested_import_guard_witness :
    esshImport importCfg midEvalState "y" =
      .error "'essh.module' is existed. does not support nested module importing." :=
  nested_import_guard.1 importCfg midEvalState "y" { path := "x", import_path := "x" } rfl

/-! ## C3: the host query's first() accessor -/

/-- C3 (the code's defect, exhibited): the `"first"` case of
`hostQueryIndex` pushes the accessor closure and then pushes `lua.LNil`,
declaring one result; by gopher-lua's convention the topmost pushed value is
the result, so the property access `q.first` yields nil — which is not
callable, so `q.first()` raises "attempt to call a non-function object"
instead of returning the first matching host or an empty result. -/
theorem hostQuery_first_access_is_nil :
    luaGFunctionResults (hostQueryIndexPushes "first").1 (hostQueryIndexPushes "first").2
        = [HQPush.lnil] ∧
    isCallable HQPush.lnil = false :=
  ⟨rfl, rfl⟩

/-! ## C2: per-field schema validation -/

/-- A value that is neither a table nor a string makes the normalizer fail
with its catch-all message. -/
theorem toScript_invalid_of_not_table_str {v : LuaValue}
    (ht : toLTable v = none) (hs : toStr v = none) :
    toScript v = .error "'script' got a invalid value." := by
  cases v with
  | table a h => exact Option.noConfusion ht
  | str s => exact Option.noConfusion hs
  | nil => rfl
  | bool b => rfl
  | num n => rfl
  | func r => rfl
  | userdata k i => rfl

/-- The semantic (lower-case) host fields the schema recognizes. -/
def hostSemanticFields : List String :=
  ["props", "hooks_before_connect", "hooks_after_connect", "hooks_after_disconnect",
   "description", "hidden", "tags"]

/-- The task fields the schema recognizes. -/
def taskFields : List String :=
  ["backend", "targets", "filters", "description", "pty", "driver", "parallel",
   "privileged", "disabled", "hidden", "script", "script_file", "prefix", "prepare",
   "props", "args"]

/-- The job fields the schema recognizes. -/
def jobFields : List String :=
  ["description", "hidden", "prepare", "hosts", "tasks", "drivers"]

theorem updateHost_unknown {h : Host} {k : String} {v : LuaValue}
    (hup : firstCharIsUpper k = false) (hmem : k ∉ hostSemanticFields) :
    updateHost h k v = .error ("unsupported host's field '" ++ k ++ "'.") := by
  unfold updateHost
  rw [if_neg (by simp [hup])]
  split <;> simp_all [hostSemanticFields]

theorem updateTask_unknown {t : Task} {k : String} {v : LuaValue}
    (hmem : k ∉ taskFields) :
    updateTask t k v = .error ("unsupported task's field '" ++ k ++ "'.") := by
  unfold updateTask
  split <;> simp_all [taskFields]

theorem updateJob_unknown {s : EsshState} {j : Job} {k : String} {v : LuaValue}
    (hmem : k ∉ jobFields) :
    updateJob s j k v = .error ("unsupported job's field '" ++ k ++ "'.") := by
  unfold updateJob
  split <;> simp_all [jobFields]

theorem updateDriver_other {d : Driver} {k : String} {v : LuaValue}
    (hk : k ≠ "engine") :
    updateDriver d k v = .ok { d with LValues := mapSet d.LValues k v } := by
  unfold updateDriver
  split <;> simp_all

theorem updateHost_ssh_wrong_shape {h : Host} {k : String} {v : LuaValue}
    (hup : firstCharIsUpper k = true) (hv : toStr v = none) :
    updateHost h k v = .error "SSH property must be string" := by
  unfold updateHost
  rw [if_pos (by simp [hup]), hv]

theorem updateHost_table_fields_wrong_shape {h : Host} {k : String} {v : LuaValue}
    (hmem : k ∈ ["props", "hooks_before_connect", "hooks_after_connect",
      "hooks_after_disconnect", "tags"])
    (hv : toLTable v = none) :
    updateHost h k v = .error ("invalid value of a host's field '" ++ k ++ "'.") := by
  simp at hmem
  rcases hmem with rfl | rfl | rfl | rfl | rfl <;>
    simp [updateHost, firstCharIsUpper, hv]

theorem updateHost_description_wrong_shape {h : Host} {v : LuaValue}
    (hv : toStr v = none) :
    updateHost h "description" v =
      .error ("invalid value of a host's field '" ++ "description" ++ "'.") := by
  simp [updateHost, firstCharIsUpper, hv]

theorem updateHost_hidden_wrong_shape {h : Host} {v : LuaValue}
    (hv : toBool v = none) :
    updateHost h "hidden" v =
      .error ("invalid value of a host's field '" ++ "hidden" ++ "'.") := by
  simp [updateHost, firstCharIsUpper, hv]

theorem updateTask_str_fields_wrong_shape {t : Task} {k : String} {v : LuaValue}
    (hmem : k ∈ ["description", "driver", "script_file"])
    (hv : toStr v = none) :
    updateTask t k v = .error ("invalid value of a task's field '" ++ k ++ "'.") := by
  simp at hmem
  rcases hmem with rfl | rfl | rfl <;> simp [updateTask, hv]

theorem updateTask_bool_fields_wrong_shape {t : Task} {k : String} {v : LuaValue}
    (hmem : k ∈ ["pty", "parallel", "privileged", "disabled", "hidden"])
    (hv : toBool v = none) :
    updateTask t k v = .error ("invalid value of a task's field '" ++ k ++ "'.") := by
  simp at hmem
  rcases hmem with rfl | rfl | rfl | rfl | rfl <;> simp [updateTask, hv]

theorem updateTask_slice_fields_wrong_shape {t : Task} {k : String} {v : LuaValue}
    (hmem : k ∈ ["targets", "filters"])
    (hs : toStr v = none) (hv : toSlice v = none) :
    updateTask t k v = .error ("invalid value of a task's field '" ++ k ++ "'.") := by
  simp at hmem
  rcases hmem with rfl | rfl <;> simp [updateTask, hs, hv]

theorem updateTask_args_wrong_shape {t : Task} {v : LuaValue}
    (hv : toSlice v = none) :
    updateTask t "args" v =
      .error ("invalid value of a task's field '" ++ "args" ++ "'.") := by
  simp [updateTask, hv]

theorem updateTask_prefix_wrong_shape {t : Task} {v : LuaValue}
    (hb : toBool v = none) (hs : toStr v = none) :
    updateTask t "prefix" v =
      .error ("invalid value of a task's field '" ++ "prefix" ++ "'.") := by
  simp [updateTask, hb, hs]

theorem updateTask_prepare_wrong_shape {t : Task} {v : LuaValue}
    (hf : isLFunction v = false) :
    updateTask t "prepare" v = .error "prepare have to be a function." := by
  simp [updateTask, hf]

theorem updateTask_props_wrong_shape {t : Task} {v : LuaValue}
    (hv : toLTable v = none) :
    updateTask t "props" v =
      .error ("invalid value of a task's field '" ++ "props" ++ "'.") := by
  simp [updateTask, hv]

theorem updateTask_script_wrong_shape {t : Task} {v : LuaValue}
    (ht : toLTable v = none) (hs : toStr v = none) :
    updateTask t "script" v = .error "'script' got a invalid value." := by
  simp [updateTask, toScript_invalid_of_not_table_str ht hs]

theorem updateDriver_engine_wrong_shape {d : Driver} {v : LuaValue}
    (hf : isLFunction v = false) (hs : toStr v = none) :
    updateDriver d "engine" v = .error "driver 'engine' have to be a function or string." := by
  cases v with
  | func r => simp [isLFunction] at hf
  | nil => rfl
  | bool b => rfl
  | num n => rfl
  | str s => exact Option.noConfusion hs
  | table a h => rfl
  | userdata k i => rfl

theorem updateJob_description_wrong_shape {s : EsshState} {j : Job} {v : LuaValue}
    (hv : toStr v = none) :
    updateJob s j "description" v =
      .error ("invalid value of a job's field '" ++ "description" ++ "'.") := by
  simp [updateJob, hv]

theorem updateJob_hidden_wrong_shape {s : EsshState} {j : Job} {v : LuaValue}
    (hv : toBool v = none) :
    updateJob s j "hidden" v =
      .error ("invalid value of a job's field '" ++ "hidden" ++ "'.") := by
  simp [updateJob, hv]

theorem updateJob_prepare_wrong_shape {s : EsshState} {j : Job} {v : LuaValue}
    (hf : isLFunction v = false) :
    updateJob s j "prepare" v = .error "prepare have to be a function." := by
  simp [updateJob, hf]

theorem updateJob_subregistry_wrong_shape {s : EsshState} {j : Job} {k : String}
    {v : LuaValue} (hmem : k ∈ ["hosts", "tasks", "drivers"])
    (hv : toLTable v = none) :
    updateJob s j k v = .error ("expected table but got '" ++ luaDisplay v ++ "'\n") := by
  simp at hmem
  rcases hmem with rfl | rfl | rfl <;> simp [updateJob, hv]

theorem updateTask_backend_nonstring {t : Task} {v : LuaValue} (hv : toStr v = none) :
    updateTask t "backend" v = .ok { t with LValues := mapSet t.LValues "backend" v } := by
  simp [updateTask, hv]

/-- C2 counterexample: assigning an unknown field to a driver does NOT fail
— `updateDriver`'s switch has no default case, so the assignment is silently
recorded in the raw bag and succeeds, contradicting "assigning an unknown
field name ... fails immediately". -/
theorem updateDriver_unknown_field_silently_ok :
    updateDriver {} "no_such_field" (.num 1) =
      .ok { LValues := [("no_such_field", .num 1)] } := rfl

/-- C2 (amended): Host (lower-case keys), Task and Job reject unknown field
names with an error naming the field, but Driver silently stores any
unknown field with no error.  Recognized fields reject wrong-shaped values
with an error naming the field, with these exceptions, each proved here:
task `backend` silently ignores a non-string value (no error, field not
updated); host upper-case SSH passthrough fields fail with "SSH property
must be string", which does not name the field; job
`hosts`/`tasks`/`drivers` fail with "expected table but got ...", which does
not name the field; and `prepare` (Task and Job) fails with "prepare have
to be a function.", which does name it. -/
theorem field_assignment_validation :
    (∀ (h : Host) (k : String) (v : LuaValue),
      firstCharIsUpper k = false → k ∉ hostSemanticFields →
      updateHost h k v = .error ("unsupported host's field '" ++ k ++ "'.")) ∧
    (∀ (t : Task) (k : String) (v : LuaValue), k ∉ taskFields →
      updateTask t k v = .error ("unsupported task's field '" ++ k ++ "'.")) ∧
    (∀ (s : EsshState) (j : Job) (k : String) (v : LuaValue), k ∉ jobFields →
      updateJob s j k v = .error ("unsupported job's field '" ++ k ++ "'.")) ∧
    (∀ (d : Driver) (k : String) (v : LuaValue), k ≠ "engine" →
      updateDriver d k v = .ok { d with LValues := mapSet d.LValues k v }) ∧
    (∀ (t : Task) (v : LuaValue), toStr v = none →
      updateTask t "backend" v = .ok { t with LValues := mapSet t.LValues "backend" v }) ∧
    (∀ (h : Host) (k : String) (v : LuaValue),
      firstCharIsUpper k = true → toStr v = none →
      updateHost h k v = .error "SSH property must be string") ∧
    (∀ (h : Host) (k : String) (v : LuaValue),
      k ∈ ["props", "hooks_before_connect", "hooks_after_connect",
        "hooks_after_disconnect", "tags"] → toLTable v = none →
      updateHost h k v = .error ("invalid value of a host's field '" ++ k ++ "'.")) ∧
    (∀ (h : Host) (v : LuaValue), toStr v = none →
      updateHost h "description" v =
        .error ("invalid value of a host's field '" ++ "description" ++ "'.")) ∧
    (∀ (h : Host) (v : LuaValue), toBool v = none →
      updateHost h "hidden" v =
        .error ("invalid value of a host's field '" ++ "hidden" ++ "'.")) ∧
    (∀ (t : Task) (k : String) (v : LuaValue),
      k ∈ ["description", "driver", "script_file"] → toStr v = none →
      updateTask t k v = .error ("invalid value of a task's field '" ++ k ++ "'.")) ∧
    (∀ (t : Task) (k : String) (v : LuaValue),
      k ∈ ["pty", "parallel", "privileged", "disabled", "hidden"] → toBool v = none →
      updateTask t k v = .error ("invalid value of a task's field '" ++ k ++ "'.")) ∧
    (∀ (t : Task) (k : String) (v : LuaValue),
      k ∈ ["targets", "filters"] → toStr v = none → toSlice v = none →
      updateTask t k v = .error ("invalid value of a task's field '" ++ k ++ "'.")) ∧
    (∀ (t : Task) (v : LuaValue), toSlice v = none →
      updateTask t "args" v =
        .error ("invalid value of a task's field '" ++ "args" ++ "'.")) ∧
    (∀ (t : Task) (v : LuaValue), toBool v = none → toStr v = none →
      updateTask t "prefix" v =
        .error ("invalid value of a task's field '" ++ "prefix" ++ "'.")) ∧
    (∀ (t : Task) (v : LuaValue), isLFunction v = false →
      updateTask t "prepare" v = .error "prepare have to be a function.") ∧
    (∀ (t : Task) (v : LuaValue), toLTable v = none →
      updateTask t "props" v =
        .error ("invalid value of a task's field '" ++ "props" ++ "'.")) ∧
    (∀ (t : Task) (v : LuaValue), toLTable v = none → toStr v = none →
      updateTask t "script" v = .error "'script' got a invalid value.") ∧
    (∀ (d : Driver) (v : LuaValue), isLFunction v = false → toStr v = none →
      updateDriver d "engine" v =
        .error "driver 'engine' have to be a function or string.") ∧
    (∀ (s : EsshState) (j : Job) (v : LuaValue), toStr v = none →
      updateJob s j "description" v =
        .error ("invalid value of a job's field '" ++ "description" ++ "'.")) ∧
    (∀ (s : EsshState) (j : Job) (v : LuaValue), toBool v = none →
      updateJob s j "hidden" v =
        .error ("invalid value of a job's field '" ++ "hidden" ++ "'.")) ∧
    (∀ (s : EsshState) (j : Job) (v : LuaValue), isLFunction v = false →
      updateJob s j "prepare" v = .error "prepare have to be a function.") ∧
    (∀ (s : EsshState) (j : Job) (k : String) (v : LuaValue),
      k ∈ ["hosts", "tasks", "drivers"] → toLTable v = none →
      updateJob s j k v = .error ("expected table but got '" ++ luaDisplay v ++ "'\n")) :=
  ⟨fun _ _ _ hup hmem => updateHost_unknown hup hmem,
   fun _ _ _ hmem => updateTask_unknown hmem,
   fun _ _ _ _ hmem => updateJob_unknown hmem,
   fun _ _ _ hk => updateDriver_other hk,
   fun _ _ hv => updateTask_backend_nonstring hv,
   fun _ _ _ hup hv => updateHost_ssh_wrong_shape hup hv,
   fun _ _ _ hmem hv => updateHost_table_fields_wrong_shape hmem hv,
   fun _ _ hv => updateHost_description_wrong_shape hv,
   fun _ _ hv => updateHost_hidden_wrong_shape hv,
   fun _ _ _ hmem hv => updateTask_str_fields_wrong_shape hmem hv,
   fun _ _ _ hmem hv => updateTask_bool_fields_wrong_shape hmem hv,
   fun _ _ _ hmem hs hv => updateTask_slice_fields_wrong_shape hmem hs hv,
   fun _ _ hv => updateTask_args_wrong_shape hv,
   fun _ _ hb hs => updateTask_prefix_wrong_shape hb hs,
   fun _ _ hf => updateTask_prepare_wrong_shape hf,
   fun _ _ hv => updateTask_props_wrong_shape hv,
   fun _ _ ht hs => updateTask_script_wrong_shape ht hs,
   fun _ _ hf hs => updateDriver_engine_wrong_shape hf hs,
   fun _ _ _ hv => updateJob_description_wrong_shape hv,
   fun _ _ _ hv => updateJob_hidden_wrong_shape hv,
   fun _ _ _ hf => updateJob_prepare_wrong_shape hf,
   fun _ _ _ _ hmem hv => updateJob_subregistry_wrong_shape hmem hv⟩

/-- Witness for C2 at a concrete input: an unknown task field fails naming
the field. -/
theorem field_assignment_validation_witness :
    updateTask {} "bogus" (.num 1) = .error "unsupported task's field 'bogus'." :=
  field_assignment_validation.2.1 {} "bogus" (.num 1) (by decide)

end Essh
